import Mathlib

/-!
# WealthWise storage layer: the Transaction–Account balance consistency engine

A shallow embedding of `server/storage.ts` (class `MemStorage`) from the
wealthwise personal-finance tracker, together with proofs of the spec's
claims about it.

Modelling conventions, fixed once for the whole file:

* A JS `Map` is an insertion-ordered association list `List (String × α)`;
  `Map.set` on an existing key updates the value in place (keeping the
  original position), on a fresh key it appends at the end; `Map.delete`
  removes the entry and returns whether it was present.  These are exactly
  the ECMAScript `Map` semantics.
* `randomUUID()` and `new Date()` are external inputs of the operations;
  they are passed as explicit oracle parameters (`newId`, `now`).
* The source stores `Account.balance` and `Transaction.amount` as decimal
  strings (schema type `decimal(12,2)`) and converts through
  `parseFloat` / `Number.prototype.toString` around every arithmetic step,
  so the arithmetic actually runs on IEEE-754 binary64 doubles.  Two
  numeric layers are modelled.  `MemStorage`/`DbStorage` below carry the
  spec's §4.2 exact fixed-point semantics (balances and amounts as `ℚ`,
  parse/print as identities) and support the structural, ordering, frame
  and round-trip results, which do not depend on rounding.  `fl` and
  `FloatMem` further down model the source's real pipeline — binary64
  rounding at every parse and every add/subtract — and are used to settle
  the numeric claims against the arithmetic the code actually performs.
* Timestamps (`date`, `createdAt`) are epoch milliseconds, modelled as `Int`
  (the value of `Date.prototype.getTime`).
* A `Partial<InsertX>` payload is a record of `Option` fields: `none` means
  the key is absent from the patch object.  JS `x || y` fallbacks on string
  fields (where `""` is falsy) are modelled by `jsOr`.
* Insertable payloads are modelled with all schema-required fields present
  (the schema-validation layer is an external collaborator per spec §4.1).
-/

namespace WealthWise

/-- `Map.prototype.get`: first (and in a real `Map`, only) binding of `k`. -/
def mapGet {α : Type} (m : List (String × α)) (k : String) : Option α :=
  match m with
  | [] => none
  | (k', v) :: rest => if k' = k then some v else mapGet rest k

/-- `Map.prototype.set`: update in place if the key is bound, else append. -/
def mapSet {α : Type} (m : List (String × α)) (k : String) (v : α) : List (String × α) :=
  match m with
  | [] => [(k, v)]
  | (k', v') :: rest => if k' = k then (k, v) :: rest else (k', v') :: mapSet rest k v

/-- `Map.prototype.delete`: remove the binding of `k`, if any. -/
def mapDelete {α : Type} (m : List (String × α)) (k : String) : List (String × α) :=
  match m with
  | [] => []
  | (k', v') :: rest => if k' = k then rest else (k', v') :: mapDelete rest k

/-- `Map.prototype.values` as a list, in insertion order. -/
def mapValues {α : Type} (m : List (String × α)) : List α :=
  m.map Prod.snd

/-- JS `x || y` where `x` is an optional string field: `undefined` (absent)
and `""` are falsy. -/
def jsOr (x : Option String) (y : String) : String :=
  match x with
  | some v => if v = "" then y else v
  | none => y

/-! ## Entity model (`shared/schema.ts`) -/

/-- Row of table `accounts`. -/
structure Account where
  id : String
  name : String
  type : String
  balance : ℚ
  isDefault : Bool
  deriving Repr, DecidableEq

/-- Row of table `categories`. -/
structure Category where
  id : String
  name : String
  type : String
  color : String
  icon : String
  isDefault : Bool
  deriving Repr, DecidableEq

/-- Row of table `transactions`. -/
structure Transaction where
  id : String
  amount : ℚ
  description : String
  type : String
  categoryId : String
  accountId : String
  date : Int
  createdAt : Int
  deriving Repr, DecidableEq

/-- Row of table `glossary_terms`. -/
structure GlossaryTerm where
  id : String
  term : String
  definition : String
  deriving Repr, DecidableEq

/-- `InsertAccount` (`insertAccountSchema` = accounts minus `id`). -/
structure InsertAccount where
  name : String
  type : String
  balance : ℚ
  isDefault : Bool
  deriving Repr, DecidableEq

/-- `InsertCategory` (= categories minus `id`). -/
structure InsertCategory where
  name : String
  type : String
  color : String
  icon : String
  isDefault : Bool
  deriving Repr, DecidableEq

/-- `InsertTransaction` (= transactions minus `id` and `createdAt`). -/
structure InsertTransaction where
  amount : ℚ
  description : String
  type : String
  categoryId : String
  accountId : String
  date : Int
  deriving Repr, DecidableEq

/-- `InsertGlossaryTerm` (= glossary terms minus `id`). -/
structure InsertGlossaryTerm where
  term : String
  definition : String
  deriving Repr, DecidableEq

/-- `Partial<InsertAccount>`: `none` = key absent from the patch. -/
structure AccountUpdate where
  name : Option String
  type : Option String
  balance : Option ℚ
  isDefault : Option Bool
  deriving Repr, DecidableEq

/-- `Partial<InsertCategory>`. -/
structure CategoryUpdate where
  name : Option String
  type : Option String
  color : Option String
  icon : Option String
  isDefault : Option Bool
  deriving Repr, DecidableEq

/-- `Partial<InsertTransaction>`. -/
structure TransactionUpdate where
  amount : Option ℚ
  description : Option String
  type : Option String
  categoryId : Option String
  accountId : Option String
  date : Option Int
  deriving Repr, DecidableEq

/-- `Partial<InsertGlossaryTerm>`. -/
structure GlossaryTermUpdate where
  term : Option String
  definition : Option String
  deriving Repr, DecidableEq

/-- The four private maps of `MemStorage`. -/
structure StoreState where
  accounts : List (String × Account)
  categories : List (String × Category)
  transactions : List (String × Transaction)
  glossaryTerms : List (String × GlossaryTerm)
  deriving Repr, DecidableEq

/-- The JS object `{ balance: b.toString() }` used by the balance
adjustment protocol when it calls `updateAccount`. -/
def balancePatch (b : ℚ) : AccountUpdate :=
  { name := none, type := none, balance := some b, isDefault := none }

/-- The JS spread merge `{ ...transaction, ...updateTransaction }`: fields
present in the patch override; `id` and `createdAt` are not insertable and
therefore survive. -/
def mergeTx (t : Transaction) (u : TransactionUpdate) : Transaction :=
  { id := t.id
    amount := u.amount.getD t.amount
    description := u.description.getD t.description
    type := u.type.getD t.type
    categoryId := u.categoryId.getD t.categoryId
    accountId := u.accountId.getD t.accountId
    date := u.date.getD t.date
    createdAt := t.createdAt }

/-! ## `MemStorage` operations (`server/storage.ts`) -/

namespace MemStorage

/-- `getAccounts`: `Array.from(this.accounts.values())`. -/
def getAccounts (s : StoreState) : List Account :=
  mapValues s.accounts

/-- `getAccount`: `this.accounts.get(id)`. -/
def getAccount (s : StoreState) (id : String) : Option Account :=
  mapGet s.accounts id

/-- `createAccount`: build `{ ...insertAccount, id }` with a fresh UUID and
store it. -/
def createAccount (s : StoreState) (newId : String) (ins : InsertAccount) :
    Account × StoreState :=
  let account : Account :=
    { id := newId, name := ins.name, type := ins.type, balance := ins.balance,
      isDefault := ins.isDefault }
  (account, { s with accounts := mapSet s.accounts newId account })

/-- `updateAccount`: merge `{ ...account, ...updateAccount }` when the id is
bound, else return `undefined` with no side effect. -/
def updateAccount (s : StoreState) (id : String) (u : AccountUpdate) :
    Option Account × StoreState :=
  match mapGet s.accounts id with
  | none => (none, s)
  | some account =>
    let updated : Account :=
      { id := account.id
        name := u.name.getD account.name
        type := u.type.getD account.type
        balance := u.balance.getD account.balance
        isDefault := u.isDefault.getD account.isDefault }
    (some updated, { s with accounts := mapSet s.accounts id updated })

/-- `deleteAccount`: `this.accounts.delete(id)`. -/
def deleteAccount (s : StoreState) (id : String) : Bool × StoreState :=
  ((mapGet s.accounts id).isSome, { s with accounts := mapDelete s.accounts id })

/-- `getCategories`. -/
def getCategories (s : StoreState) : List Category :=
  mapValues s.categories

/-- `getCategory`. -/
def getCategory (s : StoreState) (id : String) : Option Category :=
  mapGet s.categories id

/-- `createCategory`. -/
def createCategory (s : StoreState) (newId : String) (ins : InsertCategory) :
    Category × StoreState :=
  let category : Category :=
    { id := newId, name := ins.name, type := ins.type, color := ins.color,
      icon := ins.icon, isDefault := ins.isDefault }
  (category, { s with categories := mapSet s.categories newId category })

/-- `updateCategory`. -/
def updateCategory (s : StoreState) (id : String) (u : CategoryUpdate) :
    Option Category × StoreState :=
  match mapGet s.categories id with
  | none => (none, s)
  | some category =>
    let updated : Category :=
      { id := category.id
        name := u.name.getD category.name
        type := u.type.getD category.type
        color := u.color.getD category.color
        icon := u.icon.getD category.icon
        isDefault := u.isDefault.getD category.isDefault }
    (some updated, { s with categories := mapSet s.categories id updated })

/-- `deleteCategory`. -/
def deleteCategory (s : StoreState) (id : String) : Bool × StoreState :=
  ((mapGet s.categories id).isSome, { s with categories := mapDelete s.categories id })

/-- The comparator of `getTransactions`:
`(a, b) => new Date(b.date).getTime() - new Date(a.date).getTime()`,
i.e. event date descending. -/
def dateDesc (a b : Transaction) : Prop :=
  b.date ≤ a.date

instance : DecidableRel dateDesc :=
  fun a b => inferInstanceAs (Decidable (b.date ≤ a.date))

instance : IsTotal Transaction dateDesc :=
  ⟨fun a b => Int.le_total b.date a.date⟩

instance : IsTrans Transaction dateDesc :=
  ⟨fun _ _ _ hab hbc => le_trans hbc hab⟩

/-- `getTransactions`: the values, sorted by event date descending.
`Array.prototype.sort` is a stable sort (ES2019), modelled by the stable
`List.insertionSort`. -/
def getTransactions (s : StoreState) : List Transaction :=
  (mapValues s.transactions).insertionSort dateDesc

/-- `getTransaction`. -/
def getTransaction (s : StoreState) (id : String) : Option Transaction :=
  mapGet s.transactions id

/-- `createTransaction`: persist `{ ...insertTransaction, id, createdAt }`,
then, if the target account exists, post the signed amount to its balance
(income adds, anything else subtracts).  The balance arithmetic here is
the spec's §4.2 exact-decimal idealisation of the source's
parseFloat/toString double pipeline; the faithful float semantics is
`FloatMem.createTransaction`. -/
def createTransaction (s : StoreState) (newId : String) (now : Int)
    (ins : InsertTransaction) : Transaction × StoreState :=
  let transaction : Transaction :=
    { id := newId, amount := ins.amount, description := ins.description,
      type := ins.type, categoryId := ins.categoryId, accountId := ins.accountId,
      date := ins.date, createdAt := now }
  let s1 : StoreState := { s with transactions := mapSet s.transactions newId transaction }
  match mapGet s.accounts ins.accountId with
  | none => (transaction, s1)
  | some account =>
    let newBalance :=
      if ins.type = "income" then account.balance + ins.amount
      else account.balance - ins.amount
    (transaction, (updateAccount s1 ins.accountId (balancePatch newBalance)).2)

/-- `updateTransaction`: revert the old posting from the old account, merge
the patch into the record, then post the effective amount to the target
account (which may differ if `accountId` changed).  Exact-decimal
idealisation of the arithmetic; the float semantics is
`FloatMem.updateTransaction`. -/
def updateTransaction (s : StoreState) (id : String) (u : TransactionUpdate) :
    Option Transaction × StoreState :=
  match mapGet s.transactions id with
  | none => (none, s)
  | some transaction =>
    let s1 : StoreState :=
      match mapGet s.accounts transaction.accountId with
      | none => s
      | some account =>
        let revertedBalance :=
          if transaction.type = "income" then account.balance - transaction.amount
          else account.balance + transaction.amount
        (updateAccount s transaction.accountId (balancePatch revertedBalance)).2
    let updated : Transaction := mergeTx transaction u
    let s2 : StoreState := { s1 with transactions := mapSet s1.transactions id updated }
    let targetAccountId := jsOr u.accountId transaction.accountId
    let s3 : StoreState :=
      match mapGet s1.accounts targetAccountId with
      | none => s2
      | some targetAccount =>
        let newAmount := u.amount.getD transaction.amount
        let newType := jsOr u.type transaction.type
        let newBalance :=
          if newType = "income" then targetAccount.balance + newAmount
          else targetAccount.balance - newAmount
        (updateAccount s2 targetAccountId (balancePatch newBalance)).2
    (some updated, s3)

/-- `deleteTransaction`: revert the posting from the account (if it exists),
then remove the record.  Exact-decimal idealisation of the arithmetic; the
float semantics is `FloatMem.deleteTransaction`. -/
def deleteTransaction (s : StoreState) (id : String) : Bool × StoreState :=
  match mapGet s.transactions id with
  | none => (false, s)
  | some transaction =>
    let s1 : StoreState :=
      match mapGet s.accounts transaction.accountId with
      | none => s
      | some account =>
        let newBalance :=
          if transaction.type = "income" then account.balance - transaction.amount
          else account.balance + transaction.amount
        (updateAccount s transaction.accountId (balancePatch newBalance)).2
    (true, { s1 with transactions := mapDelete s1.transactions id })

/-- The comparator of `getGlossaryTerms`: `a.term.localeCompare(b.term)`,
modelled as lexicographic string order ascending (spec §4.1:
"case-sensitive collation acceptable"). -/
def termAsc (a b : GlossaryTerm) : Prop :=
  a.term ≤ b.term

instance : DecidableRel termAsc :=
  fun a b => inferInstanceAs (Decidable (a.term ≤ b.term))

instance : IsTotal GlossaryTerm termAsc :=
  ⟨fun a b => le_total a.term b.term⟩

instance : IsTrans GlossaryTerm termAsc :=
  ⟨fun _ _ _ hab hbc => le_trans hab hbc⟩

/-- `getGlossaryTerms`: values sorted by term ascending. -/
def getGlossaryTerms (s : StoreState) : List GlossaryTerm :=
  (mapValues s.glossaryTerms).insertionSort termAsc

/-- `getGlossaryTerm`. -/
def getGlossaryTerm (s : StoreState) (id : String) : Option GlossaryTerm :=
  mapGet s.glossaryTerms id

/-- `createGlossaryTerm`. -/
def createGlossaryTerm (s : StoreState) (newId : String) (ins : InsertGlossaryTerm) :
    GlossaryTerm × StoreState :=
  let term : GlossaryTerm := { id := newId, term := ins.term, definition := ins.definition }
  (term, { s with glossaryTerms := mapSet s.glossaryTerms newId term })

/-- `updateGlossaryTerm`. -/
def updateGlossaryTerm (s : StoreState) (id : String) (u : GlossaryTermUpdate) :
    Option GlossaryTerm × StoreState :=
  match mapGet s.glossaryTerms id with
  | none => (none, s)
  | some term =>
    let updated : GlossaryTerm :=
      { id := term.id
        term := u.term.getD term.term
        definition := u.definition.getD term.definition }
    (some updated, { s with glossaryTerms := mapSet s.glossaryTerms id updated })

/-- `deleteGlossaryTerm`. -/
def deleteGlossaryTerm (s : StoreState) (id : String) : Bool × StoreState :=
  ((mapGet s.glossaryTerms id).isSome,
   { s with glossaryTerms := mapDelete s.glossaryTerms id })

end MemStorage

/-! ## The persistent backend, modelled from the spec

The repository's sources as provided contain only the in-memory backend
(`MemStorage`); the relational backend the spec's §2/§4.4 describe
(`DatabaseStorage`, four durable tables keyed by the same identifiers, same
contract, no seeding) is not under the provided source tree.  Each
definition below is therefore written from the spec's words (§4.1 contract,
§4.2 balance adjustment protocol, §4.4 persistent backend), over the same
abstract state, and is then proved observationally equivalent to
`MemStorage`. -/

namespace DbStorage

/-- Modelled from the spec (§4.2): the signed delta of a transaction,
`type == income ? +amount : -amount`. -/
def delta (type : String) (amount : ℚ) : ℚ :=
  if type = "income" then amount else -amount

/-- Modelled from the spec (§4.1): list all account rows (no ordering
guarantee; the table order is the model's stored order). -/
def getAccounts (s : StoreState) : List Account :=
  mapValues s.accounts

/-- Modelled from the spec (§4.1): select one account row by id. -/
def getAccount (s : StoreState) (id : String) : Option Account :=
  mapGet s.accounts id

/-- Modelled from the spec (§4.1): insert an account row under a generated
identifier and return it. -/
def createAccount (s : StoreState) (newId : String) (ins : InsertAccount) :
    Account × StoreState :=
  let account : Account :=
    { id := newId, name := ins.name, type := ins.type, balance := ins.balance,
      isDefault := ins.isDefault }
  (account, { s with accounts := mapSet s.accounts newId account })

/-- Modelled from the spec (§4.1): merge the partial fields into the row if
it exists, else report absence with no side effect. -/
def updateAccount (s : StoreState) (id : String) (u : AccountUpdate) :
    Option Account × StoreState :=
  match mapGet s.accounts id with
  | none => (none, s)
  | some account =>
    let updated : Account :=
      { id := account.id
        name := u.name.getD account.name
        type := u.type.getD account.type
        balance := u.balance.getD account.balance
        isDefault := u.isDefault.getD account.isDefault }
    (some updated, { s with accounts := mapSet s.accounts id updated })

/-- Modelled from the spec (§4.1): delete the row, reporting whether it
existed. -/
def deleteAccount (s : StoreState) (id : String) : Bool × StoreState :=
  ((mapGet s.accounts id).isSome, { s with accounts := mapDelete s.accounts id })

/-- Modelled from the spec (§4.1): list all category rows. -/
def getCategories (s : StoreState) : List Category :=
  mapValues s.categories

/-- Modelled from the spec (§4.1): select one category row by id. -/
def getCategory (s : StoreState) (id : String) : Option Category :=
  mapGet s.categories id

/-- Modelled from the spec (§4.1): insert a category row. -/
def createCategory (s : StoreState) (newId : String) (ins : InsertCategory) :
    Category × StoreState :=
  let category : Category :=
    { id := newId, name := ins.name, type := ins.type, color := ins.color,
      icon := ins.icon, isDefault := ins.isDefault }
  (category, { s with categories := mapSet s.categories newId category })

/-- Modelled from the spec (§4.1): merge the partial fields into the
category row, absent ids reported without side effect. -/
def updateCategory (s : StoreState) (id : String) (u : CategoryUpdate) :
    Option Category × StoreState :=
  match mapGet s.categories id with
  | none => (none, s)
  | some category =>
    let updated : Category :=
      { id := category.id
        name := u.name.getD category.name
        type := u.type.getD category.type
        color := u.color.getD category.color
        icon := u.icon.getD category.icon
        isDefault := u.isDefault.getD category.isDefault }
    (some updated, { s with categories := mapSet s.categories id updated })

/-- Modelled from the spec (§4.1): delete the category row. -/
def deleteCategory (s : StoreState) (id : String) : Bool × StoreState :=
  ((mapGet s.categories id).isSome, { s with categories := mapDelete s.categories id })

/-- Modelled from the spec (§4.1): list transaction rows ordered by event
date, descending.  Ties are unspecified by the spec; the model resolves
them as the reference backend does (stable sort on stored order), which is
what an order-preserving query plan returns. -/
def getTransactions (s : StoreState) : List Transaction :=
  (mapValues s.transactions).insertionSort MemStorage.dateDesc

/-- Modelled from the spec (§4.1): select one transaction row by id. -/
def getTransaction (s : StoreState) (id : String) : Option Transaction :=
  mapGet s.transactions id

/-- Modelled from the spec (§4.2 create): persist the new transaction
record, then look up its target account; if found, apply the forward delta
to its balance; if not, skip the adjustment. -/
def createTransaction (s : StoreState) (newId : String) (now : Int)
    (ins : InsertTransaction) : Transaction × StoreState :=
  let transaction : Transaction :=
    { id := newId, amount := ins.amount, description := ins.description,
      type := ins.type, categoryId := ins.categoryId, accountId := ins.accountId,
      date := ins.date, createdAt := now }
  let s1 : StoreState := { s with transactions := mapSet s.transactions newId transaction }
  match mapGet s.accounts ins.accountId with
  | none => (transaction, s1)
  | some account =>
    (transaction,
     { s1 with accounts := mapSet s.accounts ins.accountId ({ account with
         balance := account.balance + delta ins.type ins.amount }) })

/-- Modelled from the spec (§4.2 update): apply the reverse delta of the
existing record to the existing account, merge the partial fields and
persist the record, then apply the forward delta of the effective
amount/type to the target account (which may differ if `accountId`
changed); a missing account at either phase skips that adjustment. -/
def updateTransaction (s : StoreState) (id : String) (u : TransactionUpdate) :
    Option Transaction × StoreState :=
  match mapGet s.transactions id with
  | none => (none, s)
  | some transaction =>
    let s1 : StoreState :=
      match mapGet s.accounts transaction.accountId with
      | none => s
      | some account =>
        { s with accounts := mapSet s.accounts transaction.accountId ({ account with
            balance := account.balance - delta transaction.type transaction.amount }) }
    let merged : Transaction := mergeTx transaction u
    let s2 : StoreState := { s1 with transactions := mapSet s1.transactions id merged }
    let targetId := u.accountId.getD transaction.accountId
    let s3 : StoreState :=
      match mapGet s1.accounts targetId with
      | none => s2
      | some target =>
        { s2 with accounts := mapSet s1.accounts targetId ({ target with
            balance := target.balance +
              delta (u.type.getD transaction.type) (u.amount.getD transaction.amount) }) }
    (some merged, s3)

/-- Modelled from the spec (§4.2 delete): apply the reverse delta to the
account (if it exists), then remove the record, reporting success. -/
def deleteTransaction (s : StoreState) (id : String) : Bool × StoreState :=
  match mapGet s.transactions id with
  | none => (false, s)
  | some transaction =>
    let s1 : StoreState :=
      match mapGet s.accounts transaction.accountId with
      | none => s
      | some account =>
        { s with accounts := mapSet s.accounts transaction.accountId ({ account with
            balance := account.balance - delta transaction.type transaction.amount }) }
    (true, { s1 with transactions := mapDelete s1.transactions id })

/-- Modelled from the spec (§4.1): list glossary rows ordered by term,
ascending (case-sensitive collation). -/
def getGlossaryTerms (s : StoreState) : List GlossaryTerm :=
  (mapValues s.glossaryTerms).insertionSort MemStorage.termAsc

/-- Modelled from the spec (§4.1): select one glossary row by id. -/
def getGlossaryTerm (s : StoreState) (id : String) : Option GlossaryTerm :=
  mapGet s.glossaryTerms id

/-- Modelled from the spec (§4.1): insert a glossary row. -/
def createGlossaryTerm (s : StoreState) (newId : String) (ins : InsertGlossaryTerm) :
    GlossaryTerm × StoreState :=
  let term : GlossaryTerm := { id := newId, term := ins.term, definition := ins.definition }
  (term, { s with glossaryTerms := mapSet s.glossaryTerms newId term })

/-- Modelled from the spec (§4.1): merge the partial fields into the
glossary row. -/
def updateGlossaryTerm (s : StoreState) (id : String) (u : GlossaryTermUpdate) :
    Option GlossaryTerm × StoreState :=
  match mapGet s.glossaryTerms id with
  | none => (none, s)
  | some term =>
    let updated : GlossaryTerm :=
      { id := term.id
        term := u.term.getD term.term
        definition := u.definition.getD term.definition }
    (some updated, { s with glossaryTerms := mapSet s.glossaryTerms id updated })

/-- Modelled from the spec (§4.1): delete the glossary row. -/
def deleteGlossaryTerm (s : StoreState) (id : String) : Bool × StoreState :=
  ((mapGet s.glossaryTerms id).isSome,
   { s with glossaryTerms := mapDelete s.glossaryTerms id })

end DbStorage

/-! ## Basic lemmas about the `Map` model -/

theorem mapGet_mapSet {α : Type} (m : List (String × α)) (k : String) (v : α)
    (k' : String) :
    mapGet (mapSet m k v) k' = if k = k' then some v else mapGet m k' := by
  induction m with
  | nil =>
    by_cases h : k = k' <;> simp [mapGet, mapSet, h]
  | cons p rest ih =>
    obtain ⟨pk, pv⟩ := p
    by_cases h1 : pk = k
    · subst h1
      by_cases h2 : pk = k' <;> simp [mapGet, mapSet, h2]
    · by_cases h2 : pk = k'
      · subst h2
        have : ¬ k = pk := fun h => h1 h.symm
        simp [mapGet, mapSet, h1, this]
      · simp [mapGet, mapSet, h1, h2, ih]

theorem mapGet_mapSet_self {α : Type} (m : List (String × α)) (k : String) (v : α) :
    mapGet (mapSet m k v) k = some v := by
  simp [mapGet_mapSet]

theorem mapGet_mapSet_ne {α : Type} (m : List (String × α)) (k : String) (v : α)
    (k' : String) (h : k ≠ k') :
    mapGet (mapSet m k v) k' = mapGet m k' := by
  simp [mapGet_mapSet, h]

theorem mapGet_mapDelete_ne {α : Type} (m : List (String × α)) (k k' : String)
    (h : k ≠ k') :
    mapGet (mapDelete m k) k' = mapGet m k' := by
  induction m with
  | nil => simp [mapGet, mapDelete]
  | cons p rest ih =>
    obtain ⟨pk, pv⟩ := p
    by_cases h1 : pk = k
    · subst h1
      have : ¬ pk = k' := fun hh => h (hh ▸ rfl)
      simp [mapGet, mapDelete, this]
    · by_cases h2 : pk = k' <;> simp [mapGet, mapDelete, h1, h2, Ne.symm h, ih]

/-! ## Small facts about `updateAccount` -/

namespace MemStorage

@[simp]
theorem updateAccount_snd_categories (s : StoreState) (id : String) (u : AccountUpdate) :
    ((updateAccount s id u).2).categories = s.categories := by
  unfold updateAccount
  cases mapGet s.accounts id <;> rfl

@[simp]
theorem updateAccount_snd_transactions (s : StoreState) (id : String) (u : AccountUpdate) :
    ((updateAccount s id u).2).transactions = s.transactions := by
  unfold updateAccount
  cases mapGet s.accounts id <;> rfl

@[simp]
theorem updateAccount_snd_glossaryTerms (s : StoreState) (id : String) (u : AccountUpdate) :
    ((updateAccount s id u).2).glossaryTerms = s.glossaryTerms := by
  unfold updateAccount
  cases mapGet s.accounts id <;> rfl

/-- When the account is present, `updateAccount` with the one-field patch
`{ balance: b }` replaces exactly the balance. -/
theorem updateAccount_balancePatch_found (s : StoreState) (aid : String) (acc : Account)
    (b : ℚ) (h : mapGet s.accounts aid = some acc) :
    updateAccount s aid (balancePatch b) =
      (some { acc with balance := b },
       { s with accounts := mapSet s.accounts aid { acc with balance := b } }) := by
  unfold updateAccount
  rw [h]
  rfl

/-- The record built by `createTransaction` from payload `ins`. -/
def builtTx (newId : String) (now : Int) (ins : InsertTransaction) : Transaction :=
  { id := newId, amount := ins.amount, description := ins.description,
    type := ins.type, categoryId := ins.categoryId, accountId := ins.accountId,
    date := ins.date, createdAt := now }

/-- `createTransaction` when the target account exists. -/
theorem createTransaction_eq_found (s : StoreState) (newId : String) (now : Int)
    (ins : InsertTransaction) (acc : Account)
    (h : mapGet s.accounts ins.accountId = some acc) :
    createTransaction s newId now ins =
      (builtTx newId now ins,
       { s with
          transactions := mapSet s.transactions newId (builtTx newId now ins),
          accounts := mapSet s.accounts ins.accountId
            { acc with balance :=
                if ins.type = "income" then acc.balance + ins.amount
                else acc.balance - ins.amount } }) := by
  unfold createTransaction
  simp [h, updateAccount, balancePatch, builtTx]

/-- `createTransaction` when the target account is missing. -/
theorem createTransaction_eq_missing (s : StoreState) (newId : String) (now : Int)
    (ins : InsertTransaction) (h : mapGet s.accounts ins.accountId = none) :
    createTransaction s newId now ins =
      (builtTx newId now ins,
       { s with transactions := mapSet s.transactions newId (builtTx newId now ins) }) := by
  unfold createTransaction
  simp [h, builtTx]

/-- `deleteTransaction` when the transaction and its account exist. -/
theorem deleteTransaction_eq_found (s : StoreState) (id : String) (t : Transaction)
    (acc : Account) (ht : mapGet s.transactions id = some t)
    (ha : mapGet s.accounts t.accountId = some acc) :
    deleteTransaction s id =
      (true,
       { s with
          transactions := mapDelete s.transactions id,
          accounts := mapSet s.accounts t.accountId
            { acc with balance :=
                if t.type = "income" then acc.balance - t.amount
                else acc.balance + t.amount } }) := by
  unfold deleteTransaction
  simp [ht, ha, updateAccount, balancePatch]

/-- `deleteTransaction` when the transaction exists but its account does not. -/
theorem deleteTransaction_eq_noacct (s : StoreState) (id : String) (t : Transaction)
    (ht : mapGet s.transactions id = some t)
    (ha : mapGet s.accounts t.accountId = none) :
    deleteTransaction s id =
      (true, { s with transactions := mapDelete s.transactions id }) := by
  unfold deleteTransaction
  simp [ht, ha]

/-- `updateTransaction` fully unfolded, for a present transaction whose old
account exists: the result state after the revert phase is explicit, and the
apply phase remains a match on the target account. -/
theorem updateTransaction_eq_found (s : StoreState) (id : String)
    (u : TransactionUpdate) (t : Transaction) (acc : Account)
    (ht : mapGet s.transactions id = some t)
    (ha : mapGet s.accounts t.accountId = some acc) :
    updateTransaction s id u =
      (some (mergeTx t u),
       let revAccounts := mapSet s.accounts t.accountId
         { acc with balance :=
             if t.type = "income" then acc.balance - t.amount
             else acc.balance + t.amount }
       let s2 : StoreState :=
         { s with accounts := revAccounts,
                  transactions := mapSet s.transactions id (mergeTx t u) }
       match mapGet revAccounts (jsOr u.accountId t.accountId) with
       | none => s2
       | some targetAccount =>
         let newBal : ℚ :=
           if jsOr u.type t.type = "income" then
             targetAccount.balance + u.amount.getD t.amount
           else targetAccount.balance - u.amount.getD t.amount
         { s2 with accounts := mapSet revAccounts (jsOr u.accountId t.accountId) ({ targetAccount with balance := newBal }) }) := by
  unfold updateTransaction
  simp only [ht, ha]
  cases hfind : mapGet (mapSet s.accounts t.accountId
      { acc with balance :=
          if t.type = "income" then acc.balance - t.amount
          else acc.balance + t.amount }) (jsOr u.accountId t.accountId) with
  | none => simp [hfind, ht, ha, updateAccount, balancePatch]
  | some target => simp [hfind, ht, ha, updateAccount, balancePatch]

/-- `updateTransaction` for a present transaction whose old account is
missing: the revert phase is a no-op and only the apply phase may touch an
account. -/
theorem updateTransaction_eq_noacct (s : StoreState) (id : String)
    (u : TransactionUpdate) (t : Transaction)
    (ht : mapGet s.transactions id = some t)
    (ha : mapGet s.accounts t.accountId = none) :
    updateTransaction s id u =
      (some (mergeTx t u),
       let s2 : StoreState := { s with transactions := mapSet s.transactions id (mergeTx t u) }
       match mapGet s.accounts (jsOr u.accountId t.accountId) with
       | none => s2
       | some targetAccount =>
         let newBal : ℚ :=
           if jsOr u.type t.type = "income" then
             targetAccount.balance + u.amount.getD t.amount
           else targetAccount.balance - u.amount.getD t.amount
         { s2 with accounts := mapSet s.accounts (jsOr u.accountId t.accountId) ({ targetAccount with balance := newBal }) }) := by
  unfold updateTransaction
  simp only [ht, ha]
  cases hfind : mapGet s.accounts (jsOr u.accountId t.accountId) with
  | none => simp [hfind, ht, ha, updateAccount, balancePatch]
  | some target => simp [hfind, ht, ha, updateAccount, balancePatch]

end MemStorage

/-! ## Signed transaction sums -/

/-- The signed amount of a transaction: income adds, anything else
(the source tests `type === 'income'`) subtracts. -/
def signedOf (t : Transaction) : ℚ :=
  if t.type = "income" then t.amount else -t.amount

/-- Contribution of one stored transaction to the account `aid`. -/
def contrib (aid : String) (t : Transaction) : ℚ :=
  if t.accountId = aid then signedOf t else 0

/-- Sum of the signed amounts of all stored transactions referencing `aid`. -/
def txSum (m : List (String × Transaction)) (aid : String) : ℚ :=
  (m.map fun p => contrib aid p.2).sum

@[simp]
theorem txSum_nil (aid : String) : txSum [] aid = 0 := rfl

@[simp]
theorem txSum_cons (p : String × Transaction) (m : List (String × Transaction))
    (aid : String) : txSum (p :: m) aid = contrib aid p.2 + txSum m aid := by
  simp [txSum]

theorem txSum_mapSet_of_none (m : List (String × Transaction)) (k : String)
    (v : Transaction) (aid : String) (h : mapGet m k = none) :
    txSum (mapSet m k v) aid = txSum m aid + contrib aid v := by
  induction m with
  | nil => simp [mapSet]
  | cons p rest ih =>
    obtain ⟨pk, pv⟩ := p
    by_cases h1 : pk = k
    · simp [mapGet, h1] at h
    · simp only [mapGet, h1, if_neg h1] at h
      simp [mapSet, h1, ih h]
      ring

theorem txSum_mapSet_of_some (m : List (String × Transaction)) (k : String)
    (t v : Transaction) (aid : String) (h : mapGet m k = some t) :
    txSum (mapSet m k v) aid = txSum m aid - contrib aid t + contrib aid v := by
  induction m with
  | nil => simp [mapGet] at h
  | cons p rest ih =>
    obtain ⟨pk, pv⟩ := p
    by_cases h1 : pk = k
    · simp only [mapGet, if_pos h1] at h
      obtain rfl : pv = t := by injection h
      simp [mapSet, h1]
      ring
    · simp only [mapGet, if_neg h1] at h
      simp [mapSet, h1, ih h]
      ring

theorem txSum_mapDelete_of_some (m : List (String × Transaction)) (k : String)
    (t : Transaction) (aid : String) (h : mapGet m k = some t) :
    txSum (mapDelete m k) aid = txSum m aid - contrib aid t := by
  induction m with
  | nil => simp [mapGet] at h
  | cons p rest ih =>
    obtain ⟨pk, pv⟩ := p
    by_cases h1 : pk = k
    · simp only [mapGet, if_pos h1] at h
      obtain rfl : pv = t := by injection h
      simp [mapDelete, h1]
    · simp only [mapGet, if_neg h1] at h
      simp [mapDelete, h1, ih h]
      ring

/-! ## Operation sequences and the balance-consistency invariant -/

/-- One transaction-mutating operation, with its oracle inputs (`newId` is
the `randomUUID()` draw, `now` the `new Date()` draw). -/
inductive TxOp where
  | create (newId : String) (now : Int) (ins : InsertTransaction)
  | update (id : String) (u : TransactionUpdate)
  | del (id : String)

/-- State effect of one operation. -/
def applyTxOp (s : StoreState) : TxOp → StoreState
  | .create newId now ins => (MemStorage.createTransaction s newId now ins).2
  | .update id u => (MemStorage.updateTransaction s id u).2
  | .del id => (MemStorage.deleteTransaction s id).2

/-- Run a sequence of operations left to right. -/
def runTxOps (s : StoreState) : List TxOp → StoreState
  | [] => s
  | op :: ops => runTxOps (applyTxOp s op) ops

/-- Conditions under which every operation of the sequence references only
account `aid` and completes successfully: a create targets `aid` with a
fresh UUID; an update or delete hits an existing transaction posted against
`aid`; an update does not move the transaction to another account and its
patch carries no degenerate empty-string `type` (schema validation, an
external collaborator per spec §4.1, never produces one). -/
def RefsOnly (aid : String) : StoreState → List TxOp → Prop
  | _, [] => True
  | s, op :: ops =>
    (match op with
     | .create newId _ ins =>
         ins.accountId = aid ∧ mapGet s.transactions newId = none
     | .update id u =>
         (∃ t, mapGet s.transactions id = some t ∧ t.accountId = aid) ∧
         (u.accountId = none ∨ u.accountId = some aid) ∧
         u.type ≠ some ""
     | .del id => ∃ t, mapGet s.transactions id = some t ∧ t.accountId = aid) ∧
    RefsOnly aid (applyTxOp s op) ops

/-- The balance-consistency invariant for account `aid` with base balance
`b0`: the account is present and its cached balance is `b0` plus the signed
sum of the stored transactions referencing it. -/
def BalInv (aid : String) (b0 : ℚ) (s : StoreState) : Prop :=
  ∃ acc, mapGet s.accounts aid = some acc ∧
    acc.balance = b0 + txSum s.transactions aid

theorem balInv_create (aid : String) (b0 : ℚ) (s : StoreState) (newId : String)
    (now : Int) (ins : InsertTransaction) (hins : ins.accountId = aid)
    (hfresh : mapGet s.transactions newId = none) (hinv : BalInv aid b0 s) :
    BalInv aid b0 (MemStorage.createTransaction s newId now ins).2 := by
  obtain ⟨acc, hacc, hbal⟩ := hinv
  subst hins
  rw [MemStorage.createTransaction_eq_found s newId now ins acc hacc]
  refine ⟨_, mapGet_mapSet_self _ _ _, ?_⟩
  simp only [txSum_mapSet_of_none _ _ _ _ hfresh]
  simp only [contrib, signedOf, MemStorage.builtTx, hbal]
  by_cases htype : ins.type = "income" <;> simp [htype] <;> ring

theorem balInv_update (aid : String) (b0 : ℚ) (s : StoreState) (id : String)
    (u : TransactionUpdate) (t : Transaction)
    (ht : mapGet s.transactions id = some t) (htaid : t.accountId = aid)
    (huaid : u.accountId = none ∨ u.accountId = some aid) (hutype : u.type ≠ some "")
    (hinv : BalInv aid b0 s) :
    BalInv aid b0 (MemStorage.updateTransaction s id u).2 := by
  obtain ⟨acc, hacc, hbal⟩ := hinv
  subst htaid
  rw [MemStorage.updateTransaction_eq_found s id u t acc ht hacc]
  have htarget : jsOr u.accountId t.accountId = t.accountId := by
    rcases huaid with h | h <;> simp [jsOr, h]
  have hmaid : (mergeTx t u).accountId = t.accountId := by
    rcases huaid with h | h <;> simp [mergeTx, h]
  have hmtype : jsOr u.type t.type = (mergeTx t u).type := by
    cases hu : u.type with
    | none => simp [jsOr, mergeTx, hu]
    | some v =>
      have hv : v ≠ "" := fun he => hutype (by rw [hu, he])
      simp [jsOr, mergeTx, hu, hv]
  rw [htarget]
  simp only [mapGet_mapSet_self]
  refine ⟨_, mapGet_mapSet_self _ _ _, ?_⟩
  have hct : contrib t.accountId t = signedOf t := by simp [contrib]
  have hcm : contrib t.accountId (mergeTx t u) = signedOf (mergeTx t u) := by
    simp [contrib, hmaid]
  have hsm : signedOf (mergeTx t u) =
      if (mergeTx t u).type = "income" then u.amount.getD t.amount
      else -(u.amount.getD t.amount) := by
    simp [signedOf, mergeTx]
  simp only [txSum_mapSet_of_some _ _ _ _ _ ht, hmtype, hct, hcm, hsm, hbal]
  by_cases hC : (mergeTx t u).type = "income" <;> by_cases h1 : t.type = "income" <;>
    simp only [hC, h1, signedOf, if_true, if_false, ite_true, ite_false] <;> ring

theorem balInv_del (aid : String) (b0 : ℚ) (s : StoreState) (id : String)
    (t : Transaction) (ht : mapGet s.transactions id = some t)
    (htaid : t.accountId = aid) (hinv : BalInv aid b0 s) :
    BalInv aid b0 (MemStorage.deleteTransaction s id).2 := by
  obtain ⟨acc, hacc, hbal⟩ := hinv
  subst htaid
  rw [MemStorage.deleteTransaction_eq_found s id t acc ht hacc]
  refine ⟨_, mapGet_mapSet_self _ _ _, ?_⟩
  simp only [txSum_mapDelete_of_some _ _ _ _ ht]
  simp only [contrib, signedOf, hbal]
  by_cases htype : t.type = "income" <;> simp [htype] <;> ring

theorem balInv_run (aid : String) (b0 : ℚ) :
    ∀ (ops : List TxOp) (s : StoreState),
      BalInv aid b0 s → RefsOnly aid s ops → BalInv aid b0 (runTxOps s ops)
  | [], _, hinv, _ => hinv
  | op :: ops, s, hinv, hrefs => by
    obtain ⟨hop, hrest⟩ := hrefs
    have hnext : BalInv aid b0 (applyTxOp s op) := by
      cases op with
      | create newId now ins =>
        exact balInv_create aid b0 s newId now ins hop.1 hop.2 hinv
      | update id u =>
        obtain ⟨⟨t, ht, htaid⟩, huaid, hutype⟩ := hop
        exact balInv_update aid b0 s id u t ht htaid huaid hutype hinv
      | del id =>
        obtain ⟨t, ht, htaid⟩ := hop
        exact balInv_del aid b0 s id t ht htaid hinv
    exact balInv_run aid b0 ops (applyTxOp s op) hnext hrest

/-! ## Frame predicate for the balance adjustment protocol -/

/-- Going from `s` to `s'`: categories and glossary terms are untouched,
accounts outside `touched` are untouched, and every account present in `s`
is still present with every field except possibly `balance` unchanged.
(The transactions map is unconstrained.) -/
def FrameOK (s s' : StoreState) (touched : List String) : Prop :=
  s'.categories = s.categories ∧
  s'.glossaryTerms = s.glossaryTerms ∧
  (∀ k, k ∉ touched → mapGet s'.accounts k = mapGet s.accounts k) ∧
  (∀ k acc, mapGet s.accounts k = some acc →
     ∃ acc', mapGet s'.accounts k = some acc' ∧ acc'.id = acc.id ∧
       acc'.name = acc.name ∧ acc'.type = acc.type ∧ acc'.isDefault = acc.isDefault)

theorem frameOK_of_accounts_eq (s s' : StoreState) (touched : List String)
    (hc : s'.categories = s.categories) (hg : s'.glossaryTerms = s.glossaryTerms)
    (ha : s'.accounts = s.accounts) : FrameOK s s' touched :=
  ⟨hc, hg, fun _ _ => by rw [ha],
   fun k acc h => ⟨acc, by rw [ha]; exact h, rfl, rfl, rfl, rfl⟩⟩

theorem frameOK_mono (s s' : StoreState) (l l' : List String)
    (h : FrameOK s s' l) (hsub : ∀ k, k ∈ l → k ∈ l') : FrameOK s s' l' :=
  ⟨h.1, h.2.1, fun k hk => h.2.2.1 k (fun hm => hk (hsub k hm)), h.2.2.2⟩

theorem frameOK_trans (s1 s2 s3 : StoreState) (l1 l2 : List String)
    (h12 : FrameOK s1 s2 l1) (h23 : FrameOK s2 s3 l2) : FrameOK s1 s3 (l1 ++ l2) := by
  obtain ⟨c12, g12, n12, p12⟩ := h12
  obtain ⟨c23, g23, n23, p23⟩ := h23
  refine ⟨c23.trans c12, g23.trans g12, fun k hk => ?_, fun k acc h => ?_⟩
  · rw [n23 k (fun hm => hk (List.mem_append.mpr (Or.inr hm))),
      n12 k (fun hm => hk (List.mem_append.mpr (Or.inl hm)))]
  · obtain ⟨a2, ha2, hid2, hn2, htp2, hd2⟩ := p12 k acc h
    obtain ⟨a3, ha3, hid3, hn3, htp3, hd3⟩ := p23 k a2 ha2
    exact ⟨a3, ha3, hid3.trans hid2, hn3.trans hn2, htp3.trans htp2, hd3.trans hd2⟩

/-- One balance write: the touched account gets a new balance (all other
fields kept), every other account stands, and the transactions map may be
replaced arbitrarily. -/
theorem frameOK_balance_write (s : StoreState) (aid : String) (acc : Account) (b : ℚ)
    (h : mapGet s.accounts aid = some acc) (tmap : List (String × Transaction)) :
    FrameOK s
      { s with transactions := tmap,
               accounts := mapSet s.accounts aid ({ acc with balance := b }) }
      [aid] := by
  refine ⟨rfl, rfl, fun k hk => ?_, fun k acc0 h0 => ?_⟩
  · have hne : aid ≠ k := by
      intro he
      exact hk (by simp [← he])
    exact mapGet_mapSet_ne _ _ _ _ hne
  · by_cases hk : aid = k
    · subst hk
      rw [h] at h0
      obtain rfl : acc = acc0 := by injection h0
      exact ⟨{ acc with balance := b }, mapGet_mapSet_self _ _ _, rfl, rfl, rfl, rfl⟩
    · rw [mapGet_mapSet_ne _ _ _ _ hk]
      exact ⟨acc0, h0, rfl, rfl, rfl, rfl⟩

/-- The apply-phase target of `updateTransaction` is either the old or the
merged `accountId`. -/
theorem jsOr_target_mem (u : TransactionUpdate) (t : Transaction) :
    jsOr u.accountId t.accountId ∈ [t.accountId, u.accountId.getD t.accountId] := by
  cases hu : u.accountId with
  | none => simp [jsOr]
  | some a =>
    by_cases ha : a = "" <;> simp [jsOr, ha]

/-- Frame of `createTransaction`: at most the transactions map and the
balance of the payload's account change. -/
theorem frameOK_createTransaction (s : StoreState) (newId : String) (now : Int)
    (ins : InsertTransaction) :
    FrameOK s (MemStorage.createTransaction s newId now ins).2 [ins.accountId] := by
  cases h : mapGet s.accounts ins.accountId with
  | none =>
    rw [MemStorage.createTransaction_eq_missing s newId now ins h]
    exact frameOK_of_accounts_eq _ _ _ rfl rfl rfl
  | some acc =>
    rw [MemStorage.createTransaction_eq_found s newId now ins acc h]
    exact frameOK_balance_write s ins.accountId acc _ h _

/-- Frame of `updateTransaction` on a present transaction: at most the
transactions map and the balances of the old and new accounts change. -/
theorem frameOK_updateTransaction (s : StoreState) (id : String)
    (u : TransactionUpdate) (t : Transaction)
    (ht : mapGet s.transactions id = some t) :
    FrameOK s (MemStorage.updateTransaction s id u).2
      [t.accountId, u.accountId.getD t.accountId] := by
  have hmem := jsOr_target_mem u t
  cases ha : mapGet s.accounts t.accountId with
  | none =>
    rw [MemStorage.updateTransaction_eq_noacct s id u t ht ha]
    cases hfind : mapGet s.accounts (jsOr u.accountId t.accountId) with
    | none =>
      simp only [hfind]
      exact frameOK_of_accounts_eq _ _ _ rfl rfl rfl
    | some target =>
      simp only [hfind]
      refine frameOK_mono _ _ _ _
        (frameOK_balance_write s (jsOr u.accountId t.accountId) target _ hfind _) ?_
      intro k hk
      rw [List.mem_singleton] at hk
      exact hk ▸ hmem
  | some acc =>
    rw [MemStorage.updateTransaction_eq_found s id u t acc ht ha]
    cases hfind : mapGet (mapSet s.accounts t.accountId
        ({ acc with balance :=
            if t.type = "income" then acc.balance - t.amount
            else acc.balance + t.amount })) (jsOr u.accountId t.accountId) with
    | none =>
      simp only [hfind]
      refine frameOK_mono _ _ _ _
        (frameOK_balance_write s t.accountId acc _ ha _) ?_
      intro k hk
      rw [List.mem_singleton] at hk
      simp [hk]
    | some target =>
      simp only [hfind]
      refine frameOK_mono _ _ ([t.accountId] ++ [jsOr u.accountId t.accountId]) _
        (frameOK_trans _ _ _ _ _
          (frameOK_balance_write s t.accountId acc _ ha
            (mapSet s.transactions id (mergeTx t u)))
          (frameOK_balance_write _ (jsOr u.accountId t.accountId) target _ hfind _)) ?_
      intro k hk
      rcases List.mem_append.mp hk with hk | hk
      · rw [List.mem_singleton] at hk
        simp [hk]
      · rw [List.mem_singleton] at hk
        exact hk ▸ hmem

/-- Frame of `deleteTransaction` on a present transaction: at most the
transactions map and the balance of the transaction's account change. -/
theorem frameOK_deleteTransaction (s : StoreState) (id : String) (t : Transaction)
    (ht : mapGet s.transactions id = some t) :
    FrameOK s (MemStorage.deleteTransaction s id).2 [t.accountId] := by
  cases ha : mapGet s.accounts t.accountId with
  | none =>
    rw [MemStorage.deleteTransaction_eq_noacct s id t ht ha]
    exact frameOK_of_accounts_eq _ _ _ rfl rfl rfl
  | some acc =>
    rw [MemStorage.deleteTransaction_eq_found s id t acc ht ha]
    exact frameOK_balance_write s t.accountId acc _ ha _

/-! ## Backend equivalence -/

theorem jsOr_eq_getD (x : Option String) (y : String) (h : x ≠ some "") :
    jsOr x y = x.getD y := by
  cases x with
  | none => rfl
  | some v =>
    have hv : v ≠ "" := fun he => h (by rw [he])
    simp [jsOr, hv]

theorem delta_apply (b : ℚ) (ty : String) (a : ℚ) :
    b + DbStorage.delta ty a = if ty = "income" then b + a else b - a := by
  by_cases h : ty = "income" <;> simp [DbStorage.delta, h, sub_eq_add_neg]

theorem delta_revert (b : ℚ) (ty : String) (a : ℚ) :
    b - DbStorage.delta ty a = if ty = "income" then b - a else b + a := by
  by_cases h : ty = "income" <;> simp [DbStorage.delta, h]

theorem db_createTransaction_eq (s : StoreState) (newId : String) (now : Int)
    (ins : InsertTransaction) :
    DbStorage.createTransaction s newId now ins =
      MemStorage.createTransaction s newId now ins := by
  unfold DbStorage.createTransaction MemStorage.createTransaction
  cases h : mapGet s.accounts ins.accountId with
  | none => simp [h]
  | some acc => simp [h, MemStorage.updateAccount, balancePatch, delta_apply]

theorem db_updateTransaction_eq (s : StoreState) (id : String) (u : TransactionUpdate)
    (hua : u.accountId ≠ some "") (hut : u.type ≠ some "") :
    DbStorage.updateTransaction s id u = MemStorage.updateTransaction s id u := by
  unfold DbStorage.updateTransaction MemStorage.updateTransaction
  cases ht : mapGet s.transactions id with
  | none => rfl
  | some t =>
    simp only [ht]
    rw [jsOr_eq_getD u.accountId t.accountId hua, jsOr_eq_getD u.type t.type hut]
    cases ha : mapGet s.accounts t.accountId with
    | none =>
      simp only [ha]
      cases hfind : mapGet s.accounts (u.accountId.getD t.accountId) with
      | none => simp [hfind]
      | some target => simp [hfind, MemStorage.updateAccount, balancePatch, delta_apply]
    | some acc =>
      simp only [ha]
      rw [MemStorage.updateAccount_balancePatch_found s t.accountId acc _ ha]
      simp only [delta_revert]
      cases hfind : mapGet (mapSet s.accounts t.accountId ({ acc with balance :=
          if t.type = "income" then acc.balance - t.amount
          else acc.balance + t.amount })) (u.accountId.getD t.accountId) with
      | none => simp [hfind]
      | some target => simp [hfind, MemStorage.updateAccount, balancePatch, delta_apply]

theorem db_deleteTransaction_eq (s : StoreState) (id : String) :
    DbStorage.deleteTransaction s id = MemStorage.deleteTransaction s id := by
  unfold DbStorage.deleteTransaction MemStorage.deleteTransaction
  cases ht : mapGet s.transactions id with
  | none => rfl
  | some t =>
    simp only [ht]
    cases ha : mapGet s.accounts t.accountId with
    | none => simp [ha]
    | some acc => simp [ha, MemStorage.updateAccount, balancePatch, delta_revert]

/-- One call of the storage contract (§4.1), with its oracle inputs. -/
inductive Op where
  | getAccounts
  | getAccount (id : String)
  | createAccount (newId : String) (ins : InsertAccount)
  | updateAccount (id : String) (u : AccountUpdate)
  | deleteAccount (id : String)
  | getCategories
  | getCategory (id : String)
  | createCategory (newId : String) (ins : InsertCategory)
  | updateCategory (id : String) (u : CategoryUpdate)
  | deleteCategory (id : String)
  | getTransactions
  | getTransaction (id : String)
  | createTransaction (newId : String) (now : Int) (ins : InsertTransaction)
  | updateTransaction (id : String) (u : TransactionUpdate)
  | deleteTransaction (id : String)
  | getGlossaryTerms
  | getGlossaryTerm (id : String)
  | createGlossaryTerm (newId : String) (ins : InsertGlossaryTerm)
  | updateGlossaryTerm (id : String) (u : GlossaryTermUpdate)
  | deleteGlossaryTerm (id : String)

/-- The observable result of one contract call. -/
inductive Res where
  | accounts (l : List Account)
  | account (a : Option Account)
  | newAccount (a : Account)
  | categories (l : List Category)
  | category (c : Option Category)
  | newCategory (c : Category)
  | transactions (l : List Transaction)
  | transaction (t : Option Transaction)
  | newTransaction (t : Transaction)
  | glossary (l : List GlossaryTerm)
  | glossaryTerm (t : Option GlossaryTerm)
  | newGlossaryTerm (t : GlossaryTerm)
  | ok (b : Bool)

/-- One contract call against the in-memory backend. -/
def memStep (s : StoreState) : Op → Res × StoreState
  | .getAccounts => (.accounts (MemStorage.getAccounts s), s)
  | .getAccount id => (.account (MemStorage.getAccount s id), s)
  | .createAccount newId ins =>
    let r := MemStorage.createAccount s newId ins
    (.newAccount r.1, r.2)
  | .updateAccount id u =>
    let r := MemStorage.updateAccount s id u
    (.account r.1, r.2)
  | .deleteAccount id =>
    let r := MemStorage.deleteAccount s id
    (.ok r.1, r.2)
  | .getCategories => (.categories (MemStorage.getCategories s), s)
  | .getCategory id => (.category (MemStorage.getCategory s id), s)
  | .createCategory newId ins =>
    let r := MemStorage.createCategory s newId ins
    (.newCategory r.1, r.2)
  | .updateCategory id u =>
    let r := MemStorage.updateCategory s id u
    (.category r.1, r.2)
  | .deleteCategory id =>
    let r := MemStorage.deleteCategory s id
    (.ok r.1, r.2)
  | .getTransactions => (.transactions (MemStorage.getTransactions s), s)
  | .getTransaction id => (.transaction (MemStorage.getTransaction s id), s)
  | .createTransaction newId now ins =>
    let r := MemStorage.createTransaction s newId now ins
    (.newTransaction r.1, r.2)
  | .updateTransaction id u =>
    let r := MemStorage.updateTransaction s id u
    (.transaction r.1, r.2)
  | .deleteTransaction id =>
    let r := MemStorage.deleteTransaction s id
    (.ok r.1, r.2)
  | .getGlossaryTerms => (.glossary (MemStorage.getGlossaryTerms s), s)
  | .getGlossaryTerm id => (.glossaryTerm (MemStorage.getGlossaryTerm s id), s)
  | .createGlossaryTerm newId ins =>
    let r := MemStorage.createGlossaryTerm s newId ins
    (.newGlossaryTerm r.1, r.2)
  | .updateGlossaryTerm id u =>
    let r := MemStorage.updateGlossaryTerm s id u
    (.glossaryTerm r.1, r.2)
  | .deleteGlossaryTerm id =>
    let r := MemStorage.deleteGlossaryTerm s id
    (.ok r.1, r.2)

/-- One contract call against the relational backend. -/
def dbStep (s : StoreState) : Op → Res × StoreState
  | .getAccounts => (.accounts (DbStorage.getAccounts s), s)
  | .getAccount id => (.account (DbStorage.getAccount s id), s)
  | .createAccount newId ins =>
    let r := DbStorage.createAccount s newId ins
    (.newAccount r.1, r.2)
  | .updateAccount id u =>
    let r := DbStorage.updateAccount s id u
    (.account r.1, r.2)
  | .deleteAccount id =>
    let r := DbStorage.deleteAccount s id
    (.ok r.1, r.2)
  | .getCategories => (.categories (DbStorage.getCategories s), s)
  | .getCategory id => (.category (DbStorage.getCategory s id), s)
  | .createCategory newId ins =>
    let r := DbStorage.createCategory s newId ins
    (.newCategory r.1, r.2)
  | .updateCategory id u =>
    let r := DbStorage.updateCategory s id u
    (.category r.1, r.2)
  | .deleteCategory id =>
    let r := DbStorage.deleteCategory s id
    (.ok r.1, r.2)
  | .getTransactions => (.transactions (DbStorage.getTransactions s), s)
  | .getTransaction id => (.transaction (DbStorage.getTransaction s id), s)
  | .createTransaction newId now ins =>
    let r := DbStorage.createTransaction s newId now ins
    (.newTransaction r.1, r.2)
  | .updateTransaction id u =>
    let r := DbStorage.updateTransaction s id u
    (.transaction r.1, r.2)
  | .deleteTransaction id =>
    let r := DbStorage.deleteTransaction s id
    (.ok r.1, r.2)
  | .getGlossaryTerms => (.glossary (DbStorage.getGlossaryTerms s), s)
  | .getGlossaryTerm id => (.glossaryTerm (DbStorage.getGlossaryTerm s id), s)
  | .createGlossaryTerm newId ins =>
    let r := DbStorage.createGlossaryTerm s newId ins
    (.newGlossaryTerm r.1, r.2)
  | .updateGlossaryTerm id u =>
    let r := DbStorage.updateGlossaryTerm s id u
    (.glossaryTerm r.1, r.2)
  | .deleteGlossaryTerm id =>
    let r := DbStorage.deleteGlossaryTerm s id
    (.ok r.1, r.2)

/-- A validated call: a transaction-update patch carries no empty-string
`accountId` or `type` (the schema layer, an external collaborator per
§4.1/§6, never produces such a patch; the reference implementation's JS
`||` fallback makes these two fields the only observable divergence). -/
def ValidOp : Op → Prop
  | .updateTransaction _ u => u.accountId ≠ some "" ∧ u.type ≠ some ""
  | _ => True

/-- All calls of the sequence are validated. -/
def ValidOps (ops : List Op) : Prop :=
  ∀ op ∈ ops, ValidOp op

theorem dbStep_eq_memStep (s : StoreState) (op : Op) (h : ValidOp op) :
    dbStep s op = memStep s op := by
  cases op with
  | createTransaction newId now ins =>
    simp [dbStep, memStep, db_createTransaction_eq]
  | updateTransaction id u =>
    simp [dbStep, memStep, db_updateTransaction_eq s id u h.1 h.2]
  | deleteTransaction id =>
    simp [dbStep, memStep, db_deleteTransaction_eq]
  | _ => rfl

/-- Run a call sequence against the in-memory backend, collecting results. -/
def memRun (s : StoreState) : List Op → List Res × StoreState
  | [] => ([], s)
  | op :: ops =>
    let r := memStep s op
    let rest := memRun r.2 ops
    (r.1 :: rest.1, rest.2)

/-- Run a call sequence against the relational backend. -/
def dbRun (s : StoreState) : List Op → List Res × StoreState
  | [] => ([], s)
  | op :: ops =>
    let r := dbStep s op
    let rest := dbRun r.2 ops
    (r.1 :: rest.1, rest.2)

/-! ## Faithful IEEE-754 binary64 semantics

The source computes every balance through `parseFloat` (decimal string to
nearest binary64 double), a double addition or subtraction, and
`Number.prototype.toString` (the shortest decimal string that parses back
to the same double).  Because `toString ∘ parseFloat` is the identity on
doubles, the value the arithmetic sees is always a double; the model below
therefore carries the doubles themselves as rationals, with `fl` the
binary64 rounding function (round to nearest, ties to even, subnormal
quantum `2⁻¹⁰⁷⁴`; the overflow range beyond `2¹⁰²⁴`, unreachable from
`decimal(12,2)` data, is not modelled). -/

/-- Round a rational to the nearest integer, ties to even. -/
def roundNE (x : ℚ) : ℤ :=
  let n := ⌊x⌋
  if x - n < 1/2 then n
  else if 1/2 < x - n then n + 1
  else if n % 2 = 0 then n else n + 1

/-- Binary64 rounding of a positive rational: 53 significant bits, round
to nearest with ties to even, subnormal quantum `2⁻¹⁰⁷⁴`. -/
def flPos (q : ℚ) : ℚ :=
  if q = 0 then 0
  else
    let e : ℤ := max (Int.log 2 q - 52) (-1074)
    (roundNE (q / 2 ^ e) : ℚ) * 2 ^ e

/-- Binary64 rounding.  Round-to-nearest-ties-even is symmetric, so a
negative value rounds through its magnitude. -/
def fl (q : ℚ) : ℚ :=
  if q < 0 then -flPos (-q) else flPos q

theorem fl_zero : fl 0 = 0 := by
  unfold fl flPos
  norm_num

theorem fl_of_pos {q : ℚ} (hq : 0 < q) : fl q = flPos q := by
  unfold fl
  rw [if_neg (not_lt.mpr (le_of_lt hq))]

theorem fl_of_neg {q : ℚ} (hq : q < 0) : fl q = -flPos (-q) := by
  unfold fl
  rw [if_pos hq]

theorem int_log_two_eq {q : ℚ} {k : ℤ} (hq : 0 < q)
    (h1 : (2:ℚ) ^ k ≤ q) (h2 : q < (2:ℚ) ^ (k + 1)) :
    Int.log 2 q = k := by
  have h1' : ((2:ℕ):ℚ) ^ k ≤ q := by exact_mod_cast h1
  have h2' : q < ((2:ℕ):ℚ) ^ (k + 1) := by exact_mod_cast h2
  have hle : k ≤ Int.log 2 q := (Int.zpow_le_iff_le_log one_lt_two hq).mp h1'
  have hlt : Int.log 2 q < k + 1 := (Int.lt_zpow_iff_log_lt one_lt_two hq).mp h2'
  omega

theorem roundNE_eq_of_lt_half {x : ℚ} {n : ℤ} (h1 : (n:ℚ) ≤ x)
    (h2 : x < (n:ℚ) + 1/2) : roundNE x = n := by
  have hf : ⌊x⌋ = n := Int.floor_eq_iff.mpr ⟨h1, by linarith⟩
  unfold roundNE
  rw [hf, if_pos (by linarith)]

theorem roundNE_eq_of_gt_half {x : ℚ} {n : ℤ} (h1 : (n:ℚ) - 1/2 < x)
    (h2 : x < (n:ℚ)) : roundNE x = n := by
  have hf : ⌊x⌋ = n - 1 := by
    apply Int.floor_eq_iff.mpr
    constructor
    · push_cast
      linarith
    · push_cast
      linarith
  unfold roundNE
  rw [hf, if_neg (by push_cast; linarith), if_pos (by push_cast; linarith)]
  omega

theorem roundNE_eq_of_tie_odd (n : ℤ) {x : ℚ} (hx : x = (n:ℚ) + 1/2)
    (hodd : n % 2 = 1) : roundNE x = n + 1 := by
  have hf : ⌊x⌋ = n := by
    apply Int.floor_eq_iff.mpr
    constructor
    · rw [hx]; linarith
    · rw [hx]; linarith
  unfold roundNE
  rw [hf, if_neg (by rw [hx]; linarith), if_neg (by rw [hx]; linarith),
    if_neg (by omega)]

theorem flPos_eval (q : ℚ) (k n : ℤ) (hq : 0 < q) (hk : -1022 ≤ k)
    (h1 : (2:ℚ) ^ k ≤ q) (h2 : q < (2:ℚ) ^ (k + 1))
    (hr : roundNE (q / 2 ^ (k - 52)) = n) :
    flPos q = (n : ℚ) * 2 ^ (k - 52) := by
  unfold flPos
  rw [if_neg (ne_of_gt hq), int_log_two_eq hq h1 h2,
    max_eq_left (by omega : (-1074:ℤ) ≤ k - 52)]
  simp only [hr]

theorem fl_eval_pos (q : ℚ) (k n : ℤ) (hq : 0 < q) (hk : -1022 ≤ k)
    (h1 : (2:ℚ) ^ k ≤ q) (h2 : q < (2:ℚ) ^ (k + 1))
    (hr : roundNE (q / 2 ^ (k - 52)) = n) :
    fl q = (n : ℚ) * 2 ^ (k - 52) := by
  rw [fl_of_pos hq, flPos_eval q k n hq hk h1 h2 hr]

/-! ### The doubles arising at the failing inputs

`fl (1/10)` is the double `0x1.999999999999Ap-4`, etc.  Each evaluation
below is forced by `fl_eval_pos` with explicit mantissa and exponent, the
inequalities discharged by `norm_num`. -/

theorem fl_tenth : fl (1/10) = 3602879701896397 / 36028797018963968 := by
  rw [fl_eval_pos (1/10) (-4) 7205759403792794 (by norm_num) (by norm_num)
    (by norm_num) (by norm_num)
    (roundNE_eq_of_gt_half (by norm_num) (by norm_num))]
  norm_num

theorem fl_fifth : fl (1/5) = 3602879701896397 / 18014398509481984 := by
  rw [fl_eval_pos (1/5) (-3) 7205759403792794 (by norm_num) (by norm_num)
    (by norm_num) (by norm_num)
    (roundNE_eq_of_gt_half (by norm_num) (by norm_num))]
  norm_num

theorem fl_d1 : fl (3602879701896397 / 36028797018963968) =
    3602879701896397 / 36028797018963968 := by
  rw [fl_eval_pos (3602879701896397 / 36028797018963968) (-4) 7205759403792794
    (by norm_num) (by norm_num) (by norm_num) (by norm_num)
    (roundNE_eq_of_lt_half (by norm_num) (by norm_num))]
  norm_num

/-- The double addition `fl(0.1) + fl(0.2)`: the exact sum is a tie,
rounded to the even mantissa — the famous `0.30000000000000004`. -/
theorem fl_d1_add_d2 :
    fl (3602879701896397 / 36028797018963968 + 3602879701896397 / 18014398509481984)
      = 1351079888211149 / 4503599627370496 := by
  rw [fl_eval_pos
    (3602879701896397 / 36028797018963968 + 3602879701896397 / 18014398509481984)
    (-2) 5404319552844596 (by norm_num) (by norm_num) (by norm_num) (by norm_num)
    ((roundNE_eq_of_tie_odd 5404319552844595 (by norm_num) (by norm_num)).trans
      (by norm_num))]
  norm_num

theorem fl_b1 : fl (1351079888211149 / 4503599627370496) =
    1351079888211149 / 4503599627370496 := by
  rw [fl_eval_pos (1351079888211149 / 4503599627370496) (-2) 5404319552844596
    (by norm_num) (by norm_num) (by norm_num) (by norm_num)
    (roundNE_eq_of_lt_half (by norm_num) (by norm_num))]
  norm_num

/-- The double subtraction `fl(0.1+0.2) - fl(0.2)`: exact (Sterbenz), but
lands two ulps above `fl(0.1)` — the stored `0.10000000000000003`. -/
theorem fl_b1_sub_d2 :
    fl (1351079888211149 / 4503599627370496 - 3602879701896397 / 18014398509481984)
      = 1801439850948199 / 18014398509481984 := by
  rw [fl_eval_pos
    (1351079888211149 / 4503599627370496 - 3602879701896397 / 18014398509481984)
    (-4) 7205759403792796 (by norm_num) (by norm_num) (by norm_num) (by norm_num)
    (roundNE_eq_of_lt_half (by norm_num) (by norm_num))]
  norm_num

theorem fl_fifty : fl (50 : ℚ) = 50 := by
  rw [fl_eval_pos 50 5 7036874417766400 (by norm_num) (by norm_num) (by norm_num)
    (by norm_num) (roundNE_eq_of_lt_half (by norm_num) (by norm_num))]
  norm_num

/-- The double subtraction `fl(0.1) - 50` rounds away the tail of
`fl(0.1)`. -/
theorem fl_d1_sub_50 :
    fl (3602879701896397 / 36028797018963968 - 50)
      = -(7022800668930867 / 140737488355328) := by
  rw [fl_of_neg (by norm_num),
    show -((3602879701896397 : ℚ) / 36028797018963968 - 50)
        = 1797836971246302003 / 36028797018963968 from by norm_num,
    flPos_eval (1797836971246302003 / 36028797018963968) 5 7022800668930867
      (by norm_num) (by norm_num) (by norm_num) (by norm_num)
      (roundNE_eq_of_lt_half (by norm_num) (by norm_num))]
  norm_num

theorem fl_bneg : fl (-(7022800668930867 / 140737488355328))
    = -(7022800668930867 / 140737488355328) := by
  rw [fl_of_neg (by norm_num), neg_neg,
    flPos_eval (7022800668930867 / 140737488355328) 5 7022800668930867
      (by norm_num) (by norm_num) (by norm_num) (by norm_num)
      (roundNE_eq_of_lt_half (by norm_num) (by norm_num))]
  norm_num

/-- The revert `fl(fl(0.1) - 50) + 50` does not return to `fl(0.1)`: the
double is `0.10000000000000142`. -/
theorem fl_bneg_add_50 :
    fl (-(7022800668930867 / 140737488355328) + 50)
      = 14073748835533 / 140737488355328 := by
  rw [show (-((7022800668930867 : ℚ) / 140737488355328) + 50)
        = 14073748835533 / 140737488355328 from by norm_num,
    fl_eval_pos (14073748835533 / 140737488355328) (-4) 7205759403792896
      (by norm_num) (by norm_num) (by norm_num) (by norm_num)
      (roundNE_eq_of_lt_half (by norm_num) (by norm_num))]
  norm_num

theorem fl_twohundred : fl (200 : ℚ) = 200 := by
  rw [fl_eval_pos 200 7 7036874417766400 (by norm_num) (by norm_num) (by norm_num)
    (by norm_num) (roundNE_eq_of_lt_half (by norm_num) (by norm_num))]
  norm_num

theorem fl_200_sub_50 : fl ((200 : ℚ) - 50) = 150 := by
  rw [show ((200 : ℚ) - 50) = 150 from by norm_num,
    fl_eval_pos 150 7 5277655813324800 (by norm_num) (by norm_num) (by norm_num)
      (by norm_num) (roundNE_eq_of_lt_half (by norm_num) (by norm_num))]
  norm_num

/-! ## The transaction operations under the source's float arithmetic

These mirror `MemStorage.createTransaction` / `updateTransaction` /
`deleteTransaction` exactly, but keep the source's numeric pipeline:
every `parseFloat` of a stored decimal is `fl`, and every JS `+`/`-` on
the parsed values is a double operation, i.e. `fl` of the exact result.
(The `MemStorage` definitions above idealise this pipeline as exact
rational arithmetic — the spec's §4.2 semantics; the claims that depend on
the difference are settled against this module.) -/

namespace FloatMem

/-- `createTransaction`, float semantics: `parseFloat(account.balance)`,
`parseFloat(insertTransaction.amount)`, one double add/subtract, store. -/
def createTransaction (s : StoreState) (newId : String) (now : Int)
    (ins : InsertTransaction) : Transaction × StoreState :=
  let transaction : Transaction :=
    { id := newId, amount := ins.amount, description := ins.description,
      type := ins.type, categoryId := ins.categoryId, accountId := ins.accountId,
      date := ins.date, createdAt := now }
  let s1 : StoreState := { s with transactions := mapSet s.transactions newId transaction }
  match mapGet s.accounts ins.accountId with
  | none => (transaction, s1)
  | some account =>
    let currentBalance := fl account.balance
    let transactionAmount := fl ins.amount
    let newBalance :=
      if ins.type = "income" then fl (currentBalance + transactionAmount)
      else fl (currentBalance - transactionAmount)
    (transaction, (MemStorage.updateAccount s1 ins.accountId (balancePatch newBalance)).2)

/-- `updateTransaction`, float semantics: the revert and reapply deltas are
double operations on `parseFloat`-ed values. -/
def updateTransaction (s : StoreState) (id : String) (u : TransactionUpdate) :
    Option Transaction × StoreState :=
  match mapGet s.transactions id with
  | none => (none, s)
  | some transaction =>
    let s1 : StoreState :=
      match mapGet s.accounts transaction.accountId with
      | none => s
      | some account =>
        let currentBalance := fl account.balance
        let oldAmount := fl transaction.amount
        let revertedBalance :=
          if transaction.type = "income" then fl (currentBalance - oldAmount)
          else fl (currentBalance + oldAmount)
        (MemStorage.updateAccount s transaction.accountId (balancePatch revertedBalance)).2
    let updated : Transaction := mergeTx transaction u
    let s2 : StoreState := { s1 with transactions := mapSet s1.transactions id updated }
    let targetAccountId := jsOr u.accountId transaction.accountId
    let s3 : StoreState :=
      match mapGet s1.accounts targetAccountId with
      | none => s2
      | some targetAccount =>
        let currentBalance := fl targetAccount.balance
        let newAmount := fl (u.amount.getD transaction.amount)
        let newType := jsOr u.type transaction.type
        let newBalance :=
          if newType = "income" then fl (currentBalance + newAmount)
          else fl (currentBalance - newAmount)
        (MemStorage.updateAccount s2 targetAccountId (balancePatch newBalance)).2
    (some updated, s3)

/-- `deleteTransaction`, float semantics. -/
def deleteTransaction (s : StoreState) (id : String) : Bool × StoreState :=
  match mapGet s.transactions id with
  | none => (false, s)
  | some transaction =>
    let s1 : StoreState :=
      match mapGet s.accounts transaction.accountId with
      | none => s
      | some account =>
        let currentBalance := fl account.balance
        let transactionAmount := fl transaction.amount
        let newBalance :=
          if transaction.type = "income" then fl (currentBalance - transactionAmount)
          else fl (currentBalance + transactionAmount)
        (MemStorage.updateAccount s transaction.accountId (balancePatch newBalance)).2
    (true, { s1 with transactions := mapDelete s1.transactions id })

end FloatMem

/-! ## Claims -/

/-- A one-account sample store used by concrete scenarios and witnesses:
account `a1` with balance 100.00. -/
def sampleAccount : Account :=
  { id := "a1", name := "Checking", type := "checking", balance := 100, isDefault := true }

/-- The sample store holding only `sampleAccount`. -/
def sampleStore : StoreState :=
  { accounts := [("a1", sampleAccount)], categories := [], transactions := [],
    glossaryTerms := [] }

/-- Under the spec's exact-decimal numeric semantics (§4.2, as in
`MemStorage` above): creating a transaction on an existing account and
then immediately deleting it restores the account record exactly.  The
source's float pipeline violates this — see `float_create_delete_drifts`
below. -/
theorem create_then_delete_restores_balance (s : StoreState) (newId : String)
    (now : Int) (acc : Account) (ins : InsertTransaction)
    (hacc : MemStorage.getAccount s ins.accountId = some acc) :
    MemStorage.getAccount
        (MemStorage.deleteTransaction (MemStorage.createTransaction s newId now ins).2
          (MemStorage.createTransaction s newId now ins).1.id).2 ins.accountId
      = some acc := by
  simp only [MemStorage.getAccount] at hacc
  rw [MemStorage.createTransaction_eq_found s newId now ins acc hacc]
  rw [MemStorage.deleteTransaction_eq_found _ _ (MemStorage.builtTx newId now ins) _
    (mapGet_mapSet_self _ _ _) (mapGet_mapSet_self _ _ _)]
  by_cases htype : ins.type = "income" <;>
    simp [MemStorage.getAccount, MemStorage.builtTx, htype, mapGet_mapSet]

/-- Concrete instance: a 5.00 expense created and deleted on the sample
store (exact semantics). -/
theorem create_then_delete_restores_balance_witness :
    MemStorage.getAccount
        (MemStorage.deleteTransaction
          (MemStorage.createTransaction sampleStore "t9" 0
            ⟨5, "coffee", "expense", "c1", "a1", 0⟩).2
          (MemStorage.createTransaction sampleStore "t9" 0
            ⟨5, "coffee", "expense", "c1", "a1", 0⟩).1.id).2 "a1"
      = some sampleAccount :=
  create_then_delete_restores_balance sampleStore "t9" 0 sampleAccount
    ⟨5, "coffee", "expense", "c1", "a1", 0⟩ rfl

/-- Under the spec's exact-decimal numeric semantics (§4.2): a 50 expense
created on account X and then reassigned to account Y restores X to its
pre-transaction record and decreases Y's balance by 50.  The source's
float pipeline fails to restore X — see `float_reassign_not_restored`
below. -/
theorem update_reassign_account (s : StoreState) (xid yid newId : String) (now : Int)
    (ax ay : Account) (descr cat : String) (d : Int)
    (hxy : xid ≠ yid) (hy0 : yid ≠ "")
    (hx : MemStorage.getAccount s xid = some ax)
    (hy : MemStorage.getAccount s yid = some ay) :
    MemStorage.getAccount
        (MemStorage.updateTransaction
          (MemStorage.createTransaction s newId now ⟨50, descr, "expense", cat, xid, d⟩).2
          (MemStorage.createTransaction s newId now ⟨50, descr, "expense", cat, xid, d⟩).1.id
          ⟨none, none, none, none, some yid, none⟩).2 xid = some ax ∧
    MemStorage.getAccount
        (MemStorage.updateTransaction
          (MemStorage.createTransaction s newId now ⟨50, descr, "expense", cat, xid, d⟩).2
          (MemStorage.createTransaction s newId now ⟨50, descr, "expense", cat, xid, d⟩).1.id
          ⟨none, none, none, none, some yid, none⟩).2 yid
      = some { ay with balance := ay.balance - 50 } := by
  simp only [MemStorage.getAccount] at hx hy
  have hne : ("expense" : String) ≠ "income" := by decide
  rw [MemStorage.createTransaction_eq_found s newId now _ ax hx]
  rw [MemStorage.updateTransaction_eq_found _ _ _ (MemStorage.builtTx newId now
    ⟨50, descr, "expense", cat, xid, d⟩) _ (mapGet_mapSet_self _ _ _)
    (mapGet_mapSet_self _ _ _)]
  simp [MemStorage.getAccount, MemStorage.builtTx, jsOr, hy0, hne,
    mapGet_mapSet, hxy, Ne.symm hxy, hy]

/-- Concrete instance: reassigning a 50 expense from `a1` to `b1` (exact
semantics). -/
theorem update_reassign_account_witness :
    MemStorage.getAccount
        (MemStorage.updateTransaction
          (MemStorage.createTransaction
            ⟨[("a1", sampleAccount), ("b1", ⟨"b1", "Savings", "savings", 200, false⟩)],
             [], [], []⟩ "t1" 0 ⟨50, "rent", "expense", "c1", "a1", 0⟩).2
          (MemStorage.createTransaction
            ⟨[("a1", sampleAccount), ("b1", ⟨"b1", "Savings", "savings", 200, false⟩)],
             [], [], []⟩ "t1" 0 ⟨50, "rent", "expense", "c1", "a1", 0⟩).1.id
          ⟨none, none, none, none, some "b1", none⟩).2 "a1" = some sampleAccount :=
  (update_reassign_account
    ⟨[("a1", sampleAccount), ("b1", ⟨"b1", "Savings", "savings", 200, false⟩)], [], [], []⟩
    "a1" "b1" "t1" 0 sampleAccount ⟨"b1", "Savings", "savings", 200, false⟩
    "rent" "c1" 0 (by decide) (by decide) rfl rfl).1

/-- C4: the end-to-end scenario on the sample store: +25.00 income takes
`a1` from 100.00 to 125.00, amending the amount to 10.00 takes it to
110.00, and deleting the transaction returns it to 100.00. -/
theorem scenario_create_update_delete :
    (MemStorage.getAccount
        (MemStorage.createTransaction sampleStore "t1" 0
          ⟨25, "salary", "income", "c1", "a1", 1⟩).2 "a1").map Account.balance
      = some 125 ∧
    (MemStorage.getAccount
        (MemStorage.updateTransaction
          (MemStorage.createTransaction sampleStore "t1" 0
            ⟨25, "salary", "income", "c1", "a1", 1⟩).2 "t1"
          ⟨some 10, none, none, none, none, none⟩).2 "a1").map Account.balance
      = some 110 ∧
    (MemStorage.getAccount
        (MemStorage.deleteTransaction
          (MemStorage.updateTransaction
            (MemStorage.createTransaction sampleStore "t1" 0
              ⟨25, "salary", "income", "c1", "a1", 1⟩).2 "t1"
            ⟨some 10, none, none, none, none, none⟩).2 "t1").2 "a1").map Account.balance
      = some 100 := by
  norm_num [MemStorage.createTransaction, MemStorage.updateTransaction,
    MemStorage.deleteTransaction, MemStorage.updateAccount, MemStorage.getAccount,
    balancePatch, mergeTx, jsOr, sampleStore, sampleAccount, mapGet, mapSet, mapDelete]

/-- C6: `getTransactions` returns the stored transactions ordered by event
date, descending: in general the listing is `dateDesc`-sorted and is a
permutation of the stored values; concretely, inserting transactions dated
2024-01-01, 2024-03-01, 2024-02-01 (dates encoded as yyyymmdd) lists them
as March, February, January. -/
theorem getTransactions_date_descending :
    (∀ s : StoreState,
        (MemStorage.getTransactions s).Sorted MemStorage.dateDesc ∧
        (MemStorage.getTransactions s).Perm (mapValues s.transactions)) ∧
    MemStorage.getTransactions
        (MemStorage.createTransaction
          (MemStorage.createTransaction
            (MemStorage.createTransaction ⟨[], [], [], []⟩ "t1" 0
              ⟨1, "jan", "expense", "c1", "a1", 20240101⟩).2 "t2" 0
            ⟨1, "mar", "expense", "c1", "a1", 20240301⟩).2 "t3" 0
          ⟨1, "feb", "expense", "c1", "a1", 20240201⟩).2
      = [⟨"t2", 1, "mar", "expense", "c1", "a1", 20240301, 0⟩,
         ⟨"t3", 1, "feb", "expense", "c1", "a1", 20240201, 0⟩,
         ⟨"t1", 1, "jan", "expense", "c1", "a1", 20240101, 0⟩] := by
  refine ⟨fun s => ⟨List.sorted_insertionSort _ _, List.perm_insertionSort _ _⟩, ?_⟩
  rfl

/-- C9: each transaction mutation modifies at most the transactions map and
the balances of the accounts referenced by the old and new `accountId`;
categories, glossary terms, non-referenced accounts, and every non-balance
field of the referenced accounts are untouched.  A missing transaction id
leaves the store identical. -/
theorem transaction_ops_frame :
    (∀ (s : StoreState) (newId : String) (now : Int) (ins : InsertTransaction),
        FrameOK s (MemStorage.createTransaction s newId now ins).2 [ins.accountId]) ∧
    (∀ (s : StoreState) (id : String) (u : TransactionUpdate),
        (MemStorage.getTransaction s id = none →
            (MemStorage.updateTransaction s id u).2 = s) ∧
        ∀ t, MemStorage.getTransaction s id = some t →
          FrameOK s (MemStorage.updateTransaction s id u).2
            [t.accountId, u.accountId.getD t.accountId]) ∧
    (∀ (s : StoreState) (id : String),
        (MemStorage.getTransaction s id = none →
            (MemStorage.deleteTransaction s id).2 = s) ∧
        ∀ t, MemStorage.getTransaction s id = some t →
          FrameOK s (MemStorage.deleteTransaction s id).2 [t.accountId]) := by
  refine ⟨frameOK_createTransaction, fun s id u => ⟨fun h => ?_, fun t ht => ?_⟩,
    fun s id => ⟨fun h => ?_, fun t ht => ?_⟩⟩
  · simp only [MemStorage.getTransaction] at h
    simp [MemStorage.updateTransaction, h]
  · simp only [MemStorage.getTransaction] at ht
    exact frameOK_updateTransaction s id u t ht
  · simp only [MemStorage.getTransaction] at h
    simp [MemStorage.deleteTransaction, h]
  · simp only [MemStorage.getTransaction] at ht
    exact frameOK_deleteTransaction s id t ht

/-- Witness for C9: deleting a 5.00 expense created on the sample store
touches only `a1`. -/
theorem transaction_ops_frame_witness :
    FrameOK
      (MemStorage.createTransaction sampleStore "t1" 0
        ⟨5, "d", "expense", "c1", "a1", 0⟩).2
      (MemStorage.deleteTransaction
        (MemStorage.createTransaction sampleStore "t1" 0
          ⟨5, "d", "expense", "c1", "a1", 0⟩).2 "t1").2
      ["a1"] :=
  (transaction_ops_frame.2.2
      (MemStorage.createTransaction sampleStore "t1" 0
        ⟨5, "d", "expense", "c1", "a1", 0⟩).2 "t1").2
    ⟨"t1", 5, "d", "expense", "c1", "a1", 0, 0⟩ rfl

/-- C5: creating a transaction whose `accountId` matches no account still
persists and returns the built record (no exception is modelled: the
operation is a total function), and leaves the whole accounts map — hence
every balance — unchanged. -/
theorem createTransaction_missing_account (s : StoreState) (newId : String) (now : Int)
    (ins : InsertTransaction) (h : MemStorage.getAccount s ins.accountId = none) :
    (MemStorage.createTransaction s newId now ins).1 =
      { id := newId, amount := ins.amount, description := ins.description,
        type := ins.type, categoryId := ins.categoryId, accountId := ins.accountId,
        date := ins.date, createdAt := now } ∧
    MemStorage.getTransaction (MemStorage.createTransaction s newId now ins).2 newId =
      some (MemStorage.createTransaction s newId now ins).1 ∧
    (MemStorage.createTransaction s newId now ins).2.accounts = s.accounts := by
  simp only [MemStorage.getAccount] at h
  unfold MemStorage.createTransaction
  simp [MemStorage.getTransaction, mapGet_mapSet, h]

/-- Witness for C5 at a concrete store and payload. -/
theorem createTransaction_missing_account_witness :
    (MemStorage.createTransaction ⟨[], [], [], []⟩ "t1" 0
        ⟨5, "coffee", "expense", "c1", "a1", 0⟩).2.accounts = [] :=
  (createTransaction_missing_account ⟨[], [], [], []⟩ "t1" 0
      ⟨5, "coffee", "expense", "c1", "a1", 0⟩ rfl).2.2

/-- C7: for each of the four entity types, `update` on an id that is not in
the store returns the absence indicator (`none`) and returns the store
state entirely unchanged. -/
theorem update_missing_id_no_effect :
    (∀ (s : StoreState) (id : String) (u : AccountUpdate),
        MemStorage.getAccount s id = none →
          MemStorage.updateAccount s id u = (none, s)) ∧
    (∀ (s : StoreState) (id : String) (u : CategoryUpdate),
        MemStorage.getCategory s id = none →
          MemStorage.updateCategory s id u = (none, s)) ∧
    (∀ (s : StoreState) (id : String) (u : TransactionUpdate),
        MemStorage.getTransaction s id = none →
          MemStorage.updateTransaction s id u = (none, s)) ∧
    (∀ (s : StoreState) (id : String) (u : GlossaryTermUpdate),
        MemStorage.getGlossaryTerm s id = none →
          MemStorage.updateGlossaryTerm s id u = (none, s)) := by
  refine ⟨?_, ?_, ?_, ?_⟩ <;> intro s id u h
  · simp only [MemStorage.getAccount] at h
    simp [MemStorage.updateAccount, h]
  · simp only [MemStorage.getCategory] at h
    simp [MemStorage.updateCategory, h]
  · simp only [MemStorage.getTransaction] at h
    simp [MemStorage.updateTransaction, h]
  · simp only [MemStorage.getGlossaryTerm] at h
    simp [MemStorage.updateGlossaryTerm, h]

/-- Witness for C7: updating a transaction id absent from the empty store. -/
theorem update_missing_id_no_effect_witness :
    MemStorage.updateTransaction ⟨[], [], [], []⟩ "nope"
        ⟨none, none, none, none, none, none⟩ = (none, ⟨[], [], [], []⟩) :=
  update_missing_id_no_effect.2.2.1 ⟨[], [], [], []⟩ "nope"
    ⟨none, none, none, none, none, none⟩ rfl

/-- C10: for each entity type, `create` followed immediately by `get` on the
returned record's id yields exactly that record (all payload fields plus the
generated id, and for transactions the server-assigned `createdAt`). -/
theorem get_after_create_roundtrip :
    (∀ (s : StoreState) (newId : String) (ins : InsertAccount),
        MemStorage.getAccount (MemStorage.createAccount s newId ins).2
            (MemStorage.createAccount s newId ins).1.id =
          some (MemStorage.createAccount s newId ins).1) ∧
    (∀ (s : StoreState) (newId : String) (ins : InsertCategory),
        MemStorage.getCategory (MemStorage.createCategory s newId ins).2
            (MemStorage.createCategory s newId ins).1.id =
          some (MemStorage.createCategory s newId ins).1) ∧
    (∀ (s : StoreState) (newId : String) (now : Int) (ins : InsertTransaction),
        MemStorage.getTransaction (MemStorage.createTransaction s newId now ins).2
            (MemStorage.createTransaction s newId now ins).1.id =
          some (MemStorage.createTransaction s newId now ins).1) ∧
    (∀ (s : StoreState) (newId : String) (ins : InsertGlossaryTerm),
        MemStorage.getGlossaryTerm (MemStorage.createGlossaryTerm s newId ins).2
            (MemStorage.createGlossaryTerm s newId ins).1.id =
          some (MemStorage.createGlossaryTerm s newId ins).1) := by
  refine ⟨?_, ?_, ?_, ?_⟩
  · intro s newId ins
    simp [MemStorage.createAccount, MemStorage.getAccount, mapGet_mapSet]
  · intro s newId ins
    simp [MemStorage.createCategory, MemStorage.getCategory, mapGet_mapSet]
  · intro s newId now ins
    unfold MemStorage.createTransaction
    cases h : mapGet s.accounts ins.accountId <;>
      simp [MemStorage.getTransaction, mapGet_mapSet, h]
  · intro s newId ins
    simp [MemStorage.createGlossaryTerm, MemStorage.getGlossaryTerm, mapGet_mapSet]

/-- Under the spec's exact-decimal numeric semantics (§4.2): for an
account `aid` present in the store with no transaction yet referencing it,
after any finite sequence of successful transaction operations that each
reference only `aid`, the cached balance equals the starting balance plus
the signed sum of the transactions currently referencing it.  The source's
float pipeline violates the invariant — see `float_invariant_fails`
below. -/
theorem balance_consistency (s0 : StoreState) (aid : String) (acc0 : Account)
    (ops : List TxOp)
    (h0 : MemStorage.getAccount s0 aid = some acc0)
    (hstart : txSum s0.transactions aid = 0)
    (hops : RefsOnly aid s0 ops) :
    ∃ acc, MemStorage.getAccount (runTxOps s0 ops) aid = some acc ∧
      acc.balance = acc0.balance + txSum (runTxOps s0 ops).transactions aid := by
  have hinv : BalInv aid acc0.balance s0 := ⟨acc0, h0, by rw [hstart]; ring⟩
  exact balInv_run aid acc0.balance ops s0 hinv hops

/-- Concrete instance: create a 25.00 income on `a1` then delete it
(exact semantics). -/
theorem balance_consistency_witness :
    ∃ acc,
      MemStorage.getAccount
          (runTxOps sampleStore
            [TxOp.create "t1" 0 ⟨25, "s", "income", "c1", "a1", 1⟩, TxOp.del "t1"])
          "a1" = some acc ∧
      acc.balance = sampleAccount.balance +
        txSum (runTxOps sampleStore
            [TxOp.create "t1" 0 ⟨25, "s", "income", "c1", "a1", 1⟩,
             TxOp.del "t1"]).transactions "a1" :=
  balance_consistency sampleStore "a1" sampleAccount
    [TxOp.create "t1" 0 ⟨25, "s", "income", "c1", "a1", 1⟩, TxOp.del "t1"] rfl rfl
    ⟨⟨rfl, rfl⟩, ⟨⟨"t1", 25, "s", "income", "c1", "a1", 1, 0⟩, rfl, rfl⟩, trivial⟩

/-- Under the spec's exact-decimal numeric semantics (§4.2): the
idealised in-memory backend and the spec-worded relational backend are
interchangeable — from any common state, every sequence of validated
contract calls produces the same observable results and the same final
state.  With the source's float arithmetic on the in-memory side the
equivalence is observably broken — see `float_backend_diverges` below. -/
theorem backends_observationally_equivalent (ops : List Op) :
    ∀ s : StoreState, ValidOps ops → dbRun s ops = memRun s ops := by
  induction ops with
  | nil => intro s _; rfl
  | cons op ops ih =>
    intro s h
    have hop : ValidOp op := h op (List.mem_cons_self op ops)
    have hops : ValidOps ops := fun o ho => h o (List.mem_cons_of_mem op ho)
    simp only [dbRun, memRun, dbStep_eq_memStep s op hop, ih (memStep s op).2 hops]

/-- Concrete instance: a create/update/delete sequence on the sample store
(exact semantics). -/
theorem backends_observationally_equivalent_witness :
    dbRun sampleStore
        [Op.createTransaction "t1" 0 ⟨25, "s", "income", "c1", "a1", 1⟩,
         Op.updateTransaction "t1" ⟨some 10, none, none, none, none, none⟩,
         Op.deleteTransaction "t1"] =
      memRun sampleStore
        [Op.createTransaction "t1" 0 ⟨25, "s", "income", "c1", "a1", 1⟩,
         Op.updateTransaction "t1" ⟨some 10, none, none, none, none, none⟩,
         Op.deleteTransaction "t1"] :=
  backends_observationally_equivalent
    [Op.createTransaction "t1" 0 ⟨25, "s", "income", "c1", "a1", 1⟩,
     Op.updateTransaction "t1" ⟨some 10, none, none, none, none, none⟩,
     Op.deleteTransaction "t1"] sampleStore
    (by
      intro op hop
      simp only [List.mem_cons, List.not_mem_nil, or_false] at hop
      rcases hop with rfl | rfl | rfl
      · trivial
      · exact ⟨by simp, by simp⟩
      · trivial)

/-- Two income postings of 0.10 and 0.20 on a fresh zero-balance account,
run through the source's float arithmetic: the stored balance is the
double `0.30000000000000004`. -/
theorem floatMem_two_incomes :
    (FloatMem.createTransaction
        (FloatMem.createTransaction
          (⟨[("a1", ⟨"a1", "Checking", "checking", 0, true⟩)], [], [], []⟩ : StoreState)
          "t1" 0 ⟨1/10, "a", "income", "c1", "a1", 0⟩).2
        "t2" 0 ⟨1/5, "b", "income", "c1", "a1", 0⟩).2.accounts
      = [("a1", ⟨"a1", "Checking", "checking",
          1351079888211149 / 4503599627370496, true⟩)] := by
  have e1 : fl (fl (0:ℚ) + fl (1/10)) = 3602879701896397 / 36028797018963968 := by
    rw [fl_zero, fl_tenth, zero_add, fl_d1]
  have e2 : fl (fl ((3602879701896397 : ℚ) / 36028797018963968) + fl (1/5))
      = 1351079888211149 / 4503599627370496 := by
    rw [fl_d1, fl_fifth, fl_d1_add_d2]
  simp [FloatMem.createTransaction, MemStorage.updateAccount, balancePatch,
    mapGet, mapSet, e1, e2, -one_div]

/-- The same two income postings through the spec-worded relational
backend (exact decimal arithmetic): the stored balance is exactly 0.30. -/
theorem dbStorage_two_incomes :
    (DbStorage.createTransaction
        (DbStorage.createTransaction
          (⟨[("a1", ⟨"a1", "Checking", "checking", 0, true⟩)], [], [], []⟩ : StoreState)
          "t1" 0 ⟨1/10, "a", "income", "c1", "a1", 0⟩).2
        "t2" 0 ⟨1/5, "b", "income", "c1", "a1", 0⟩).2.accounts
      = [("a1", ⟨"a1", "Checking", "checking", 3/10, true⟩)] := by
  norm_num [DbStorage.createTransaction, DbStorage.delta, mapGet, mapSet]

/-- C1: the code evaluated at the failing input: after posting incomes
0.10 and 0.20 to an account created with balance 0, the stored balance is
the double `0.30000000000000004`, not the signed sum
`0 + (0.10 + 0.20) = 0.30` that the balance-consistency invariant
requires. -/
theorem float_invariant_fails :
    ∃ acc,
      MemStorage.getAccount
          (FloatMem.createTransaction
            (FloatMem.createTransaction
              (⟨[("a1", ⟨"a1", "Checking", "checking", 0, true⟩)], [], [], []⟩ : StoreState)
              "t1" 0 ⟨1/10, "a", "income", "c1", "a1", 0⟩).2
            "t2" 0 ⟨1/5, "b", "income", "c1", "a1", 0⟩).2 "a1" = some acc ∧
      acc.balance = 1351079888211149 / 4503599627370496 ∧
      acc.balance ≠ 0 + (1/10 + 1/5) := by
  refine ⟨⟨"a1", "Checking", "checking", 1351079888211149 / 4503599627370496, true⟩,
    ?_, rfl, by norm_num⟩
  simp only [MemStorage.getAccount, floatMem_two_incomes]
  simp [mapGet]

/-- C2: the code evaluated at the failing input: creating a 0.20 income on
an account whose balance is 0.1 and immediately deleting it leaves the
balance at the double `0.10000000000000003`, not the pre-creation 0.1 —
the create/delete round trip drifts. -/
theorem float_create_delete_drifts :
    ∃ acc,
      MemStorage.getAccount
          (FloatMem.deleteTransaction
            (FloatMem.createTransaction
              (⟨[("a1", ⟨"a1", "Checking", "checking", 1/10, true⟩)], [], [], []⟩ : StoreState)
              "t1" 0 ⟨1/5, "drift", "income", "c1", "a1", 0⟩).2
            (FloatMem.createTransaction
              (⟨[("a1", ⟨"a1", "Checking", "checking", 1/10, true⟩)], [], [], []⟩ : StoreState)
              "t1" 0 ⟨1/5, "drift", "income", "c1", "a1", 0⟩).1.id).2 "a1"
        = some acc ∧
      acc.balance = 1801439850948199 / 18014398509481984 ∧
      acc.balance ≠ 1/10 := by
  have e1 : fl (fl ((1:ℚ)/10) + fl (1/5)) = 1351079888211149 / 4503599627370496 := by
    rw [fl_tenth, fl_fifth, fl_d1_add_d2]
  have e2 : fl (fl ((1351079888211149 : ℚ) / 4503599627370496) - fl (1/5))
      = 1801439850948199 / 18014398509481984 := by
    rw [fl_b1, fl_fifth, fl_b1_sub_d2]
  refine ⟨⟨"a1", "Checking", "checking", 1801439850948199 / 18014398509481984, true⟩,
    ?_, rfl, by norm_num⟩
  simp [FloatMem.createTransaction, FloatMem.deleteTransaction, MemStorage.getAccount,
    MemStorage.updateAccount, balancePatch, mapGet, mapSet, mapDelete, e1, e2, -one_div]

/-- C3: the code evaluated at the failing input: a 50 expense created on
account X with balance 0.1 and then reassigned to account Y leaves X at
the double `0.10000000000000142` — the revert `fl(fl(0.1) − 50) + 50`
does not restore 0.1. -/
theorem float_reassign_not_restored :
    ∃ acc,
      MemStorage.getAccount
          (FloatMem.updateTransaction
            (FloatMem.createTransaction
              (⟨[("x1", ⟨"x1", "X", "checking", 1/10, true⟩),
                 ("y1", ⟨"y1", "Y", "savings", 200, false⟩)], [], [], []⟩ : StoreState)
              "t1" 0 ⟨50, "rent", "expense", "c1", "x1", 0⟩).2
            (FloatMem.createTransaction
              (⟨[("x1", ⟨"x1", "X", "checking", 1/10, true⟩),
                 ("y1", ⟨"y1", "Y", "savings", 200, false⟩)], [], [], []⟩ : StoreState)
              "t1" 0 ⟨50, "rent", "expense", "c1", "x1", 0⟩).1.id
            ⟨none, none, none, none, some "y1", none⟩).2 "x1"
        = some acc ∧
      acc.balance = 14073748835533 / 140737488355328 ∧
      acc.balance ≠ 1/10 := by
  have ec : fl (fl ((1:ℚ)/10) - fl 50) = -(7022800668930867 / 140737488355328) := by
    rw [fl_tenth, fl_fifty, fl_d1_sub_50]
  have er : fl (fl (-((7022800668930867 : ℚ) / 140737488355328)) + fl 50)
      = 14073748835533 / 140737488355328 := by
    rw [fl_bneg, fl_fifty, fl_bneg_add_50]
  have ea : fl (fl (200 : ℚ) - fl 50) = 150 := by
    rw [fl_twohundred, fl_fifty, fl_200_sub_50]
  refine ⟨⟨"x1", "X", "checking", 14073748835533 / 140737488355328, true⟩,
    ?_, rfl, by norm_num⟩
  simp [FloatMem.createTransaction, FloatMem.updateTransaction, mergeTx, jsOr,
    MemStorage.getAccount, MemStorage.updateAccount, balancePatch,
    mapGet, mapSet, ec, er, ea, -one_div]

/-- C8: the two backends are observably NOT interchangeable as written:
after the same two income postings from the same state, the in-memory
backend (float arithmetic, as in the source) exposes balance
`0.30000000000000004` through `getAccount`, while the relational backend
as the spec words it (exact decimal arithmetic, §4.2) exposes exactly
0.30. -/
theorem float_backend_diverges :
    ∃ accF accD,
      MemStorage.getAccount
          (FloatMem.createTransaction
            (FloatMem.createTransaction
              (⟨[("a1", ⟨"a1", "Checking", "checking", 0, true⟩)], [], [], []⟩ : StoreState)
              "t1" 0 ⟨1/10, "a", "income", "c1", "a1", 0⟩).2
            "t2" 0 ⟨1/5, "b", "income", "c1", "a1", 0⟩).2 "a1" = some accF ∧
      DbStorage.getAccount
          (DbStorage.createTransaction
            (DbStorage.createTransaction
              (⟨[("a1", ⟨"a1", "Checking", "checking", 0, true⟩)], [], [], []⟩ : StoreState)
              "t1" 0 ⟨1/10, "a", "income", "c1", "a1", 0⟩).2
            "t2" 0 ⟨1/5, "b", "income", "c1", "a1", 0⟩).2 "a1" = some accD ∧
      accF.balance ≠ accD.balance := by
  refine ⟨⟨"a1", "Checking", "checking", 1351079888211149 / 4503599627370496, true⟩,
    ⟨"a1", "Checking", "checking", 3/10, true⟩, ?_, ?_, by norm_num⟩
  · simp only [MemStorage.getAccount, floatMem_two_incomes]
    simp [mapGet]
  · simp only [DbStorage.getAccount, dbStorage_two_incomes]
    simp [mapGet]

end WealthWise
